import Mathlib

/-!
A shallow embedding of the Chess 2 engine (sunfish.py): the 120-cell
mailbox board, per-army move generation, the incremental evaluator, move
application, and the MTD-bi search driver, together with theorems about
these definitions.

Conventions of the embedding:
- Python strings become `List Char`; square indices become `Int`
  (Python integer `//` and `%` agree with Lean's `Int` `/` and `%`).
- Reading a board cell out of range returns the off-board sentinel `' '`
  (the source never reads out of range on boards satisfying the section-3
  invariants, where every ray is stopped by a whitespace sentinel).
- The transposition table (an insertion-ordered Python dict) becomes an
  insertion-ordered association list.
-/

namespace Chess2

def TABLE_SIZE : Nat := 1000000

def NODES_SEARCHED : Int := 10000

def MATE_VALUE : Int := 30000

def MIDLINE_VALUE : Int := 60000

def A1 : Int := 91

def H1 : Int := 98

def A8 : Int := 21

def H8 : Int := 28

def N : Int := -10

def E : Int := 1

def S : Int := 10

def W : Int := -1

def H : Int := 0

/-- Python single-character `str.isspace` on the characters the engine can meet. -/
def isspace (c : Char) : Bool :=
  c == ' ' || c == '\n' || c == '\t' || c == '\r' || c == '\x0b' || c == '\x0c'

/-- Python `str.swapcase` on one ASCII character. -/
def swapcase (c : Char) : Char :=
  if c.isUpper then c.toLower else if c.isLower then c.toUpper else c

/-- Read the board cell at an integer index; out of range gives the
whitespace sentinel, which stops every ray exactly as the source's
padding rows do. -/
def boardGet (b : List Char) (i : Int) : Char :=
  if i < 0 then ' ' else b.getD i.toNat ' '

/-- The source's `put = lambda board, i, p: board[:i] + p + board[i+1:]`
(used only at nonnegative indices). -/
def put (b : List Char) (i : Int) (c : Char) : List Char :=
  b.take i.toNat ++ [c] ++ b.drop (i.toNat + 1)

/-- The largest `k ≤ bound` with `k * k ≤ n` (0 when none). -/
def isqrtAux : Nat → Nat → Nat
  | 0, _ => 0
  | k+1, n => if (k+1)*(k+1) ≤ n then k+1 else isqrtAux k n

/-- Kernel-computable floor square root (the bounded search covers every
sum of two squared board deltas). -/
def isqrt (n : Nat) : Nat :=
  if n < 1024 then isqrtAux 31 n else Nat.sqrt n

/-- The source's `distance`: `int(math.sqrt((Δrank)**2 + (Δfile)**2))`. -/
def distance (fromPos toPos : Int) : Int :=
  (isqrt ((toPos / 10 - fromPos / 10) * (toPos / 10 - fromPos / 10) +
          (toPos % 10 - fromPos % 10) * (toPos % 10 - fromPos % 10)).toNat : Int)

def pstP : List Int := [
  0, 0, 0, 0, 0, 0, 0, 0, 0, 0,
  0, 0, 0, 0, 0, 0, 0, 0, 0, 0,
  0, 198, 198, 198, 198, 198, 198, 198, 198, 0,
  0, 178, 198, 198, 198, 198, 198, 198, 178, 0,
  0, 178, 198, 198, 198, 198, 198, 198, 178, 0,
  0, 178, 208, 208, 208, 208, 208, 208, 178, 0,
  0, 178, 238, 238, 238, 238, 238, 238, 178, 0,
  0, 178, 218, 218, 218, 218, 218, 218, 178, 0,
  0, 178, 198, 198, 198, 198, 198, 198, 178, 0,
  0, 198, 198, 198, 198, 198, 198, 198, 198, 0,
  0, 0, 0, 0, 0, 0, 0, 0, 0, 0,
  0, 0, 0, 0, 0, 0, 0, 0, 0, 0]

def pstL : List Int := [
  0, 0, 0, 0, 0, 0, 0, 0, 0, 0,
  0, 0, 0, 0, 0, 0, 0, 0, 0, 0,
  0, 198, 198, 198, 198, 198, 198, 198, 198, 0,
  0, 178, 198, 198, 198, 198, 198, 198, 178, 0,
  0, 178, 198, 198, 198, 198, 198, 198, 178, 0,
  0, 178, 198, 208, 218, 218, 208, 198, 178, 0,
  0, 178, 198, 218, 238, 238, 218, 198, 178, 0,
  0, 178, 198, 208, 218, 218, 208, 198, 178, 0,
  0, 178, 198, 198, 198, 198, 198, 198, 178, 0,
  0, 198, 198, 198, 198, 198, 198, 198, 198, 0,
  0, 0, 0, 0, 0, 0, 0, 0, 0, 0,
  0, 0, 0, 0, 0, 0, 0, 0, 0, 0]

def pstB : List Int := [
  0, 0, 0, 0, 0, 0, 0, 0, 0, 0,
  0, 0, 0, 0, 0, 0, 0, 0, 0, 0,
  0, 797, 824, 817, 808, 808, 817, 824, 797, 0,
  0, 814, 841, 834, 825, 825, 834, 841, 814, 0,
  0, 818, 845, 838, 829, 829, 838, 845, 818, 0,
  0, 824, 851, 844, 835, 835, 844, 851, 824, 0,
  0, 827, 854, 847, 838, 838, 847, 854, 827, 0,
  0, 826, 853, 846, 837, 837, 846, 853, 826, 0,
  0, 817, 844, 837, 828, 828, 837, 844, 817, 0,
  0, 792, 819, 812, 803, 803, 812, 819, 792, 0,
  0, 0, 0, 0, 0, 0, 0, 0, 0, 0,
  0, 0, 0, 0, 0, 0, 0, 0, 0, 0]

def pstX : List Int := [
  0, 0, 0, 0, 0, 0, 0, 0, 0, 0,
  0, 0, 0, 0, 0, 0, 0, 0, 0, 0,
  0, 797, 824, 817, 808, 808, 817, 824, 797, 0,
  0, 814, 841, 834, 825, 825, 834, 841, 814, 0,
  0, 818, 845, 838, 829, 829, 838, 845, 818, 0,
  0, 824, 851, 844, 835, 835, 844, 851, 824, 0,
  0, 827, 854, 847, 838, 838, 847, 854, 827, 0,
  0, 826, 853, 846, 837, 837, 846, 853, 826, 0,
  0, 817, 844, 837, 828, 828, 837, 844, 817, 0,
  0, 792, 819, 812, 803, 803, 812, 819, 792, 0,
  0, 0, 0, 0, 0, 0, 0, 0, 0, 0,
  0, 0, 0, 0, 0, 0, 0, 0, 0, 0]

def pstT : List Int := [
  0, 0, 0, 0, 0, 0, 0, 0, 0, 0,
  0, 0, 0, 0, 0, 0, 0, 0, 0, 0,
  0, 797, 824, 817, 808, 808, 817, 824, 797, 0,
  0, 814, 841, 834, 825, 825, 834, 841, 814, 0,
  0, 818, 845, 838, 829, 829, 838, 845, 818, 0,
  0, 824, 851, 844, 835, 835, 844, 851, 824, 0,
  0, 827, 854, 847, 838, 838, 847, 854, 827, 0,
  0, 826, 853, 846, 837, 837, 846, 853, 826, 0,
  0, 817, 844, 837, 828, 828, 837, 844, 817, 0,
  0, 792, 819, 812, 803, 803, 812, 819, 792, 0,
  0, 0, 0, 0, 0, 0, 0, 0, 0, 0,
  0, 0, 0, 0, 0, 0, 0, 0, 0, 0]

def pstN : List Int := [
  0, 0, 0, 0, 0, 0, 0, 0, 0, 0,
  0, 0, 0, 0, 0, 0, 0, 0, 0, 0,
  0, 627, 762, 786, 798, 798, 786, 762, 627, 0,
  0, 763, 798, 822, 834, 834, 822, 798, 763, 0,
  0, 817, 852, 876, 888, 888, 876, 852, 817, 0,
  0, 797, 832, 856, 868, 868, 856, 832, 797, 0,
  0, 799, 834, 858, 870, 870, 858, 834, 799, 0,
  0, 758, 793, 817, 829, 829, 817, 793, 758, 0,
  0, 739, 774, 798, 810, 810, 798, 774, 739, 0,
  0, 683, 718, 742, 754, 754, 742, 718, 683, 0,
  0, 0, 0, 0, 0, 0, 0, 0, 0, 0,
  0, 0, 0, 0, 0, 0, 0, 0, 0, 0]

def pstY : List Int := [
  0, 0, 0, 0, 0, 0, 0, 0, 0, 0,
  0, 0, 0, 0, 0, 0, 0, 0, 0, 0,
  0, 627, 762, 786, 798, 798, 786, 762, 627, 0,
  0, 763, 798, 822, 834, 834, 822, 798, 763, 0,
  0, 817, 852, 876, 888, 888, 876, 852, 817, 0,
  0, 797, 832, 856, 868, 868, 856, 832, 797, 0,
  0, 799, 834, 858, 870, 870, 858, 834, 799, 0,
  0, 758, 793, 817, 829, 829, 817, 793, 758, 0,
  0, 739, 774, 798, 810, 810, 798, 774, 739, 0,
  0, 683, 718, 742, 754, 754, 742, 718, 683, 0,
  0, 0, 0, 0, 0, 0, 0, 0, 0, 0,
  0, 0, 0, 0, 0, 0, 0, 0, 0, 0]

def pstH : List Int := [
  0, 0, 0, 0, 0, 0, 0, 0, 0, 0,
  0, 0, 0, 0, 0, 0, 0, 0, 0, 0,
  0, 627, 762, 786, 798, 798, 786, 762, 627, 0,
  0, 763, 798, 822, 834, 834, 822, 798, 763, 0,
  0, 817, 852, 876, 888, 888, 876, 852, 817, 0,
  0, 797, 832, 856, 868, 868, 856, 832, 797, 0,
  0, 799, 834, 858, 870, 870, 858, 834, 799, 0,
  0, 758, 793, 817, 829, 829, 817, 793, 758, 0,
  0, 739, 774, 798, 810, 810, 798, 774, 739, 0,
  0, 683, 718, 742, 754, 754, 742, 718, 683, 0,
  0, 0, 0, 0, 0, 0, 0, 0, 0, 0,
  0, 0, 0, 0, 0, 0, 0, 0, 0, 0]

def pstR : List Int := [
  0, 0, 0, 0, 0, 0, 0, 0, 0, 0,
  0, 0, 0, 0, 0, 0, 0, 0, 0, 0,
  0, 1258, 1263, 1268, 1272, 1272, 1268, 1263, 1258, 0,
  0, 1258, 1263, 1268, 1272, 1272, 1268, 1263, 1258, 0,
  0, 1258, 1263, 1268, 1272, 1272, 1268, 1263, 1258, 0,
  0, 1258, 1263, 1268, 1272, 1272, 1268, 1263, 1258, 0,
  0, 1258, 1263, 1268, 1272, 1272, 1268, 1263, 1258, 0,
  0, 1258, 1263, 1268, 1272, 1272, 1268, 1263, 1258, 0,
  0, 1258, 1263, 1268, 1272, 1272, 1268, 1263, 1258, 0,
  0, 1258, 1263, 1268, 1272, 1272, 1268, 1263, 1258, 0,
  0, 0, 0, 0, 0, 0, 0, 0, 0, 0,
  0, 0, 0, 0, 0, 0, 0, 0, 0, 0]

def pstZ : List Int := [
  0, 0, 0, 0, 0, 0, 0, 0, 0, 0,
  0, 0, 0, 0, 0, 0, 0, 0, 0, 0,
  0, 1258, 1263, 1268, 1272, 1272, 1268, 1263, 1258, 0,
  0, 1258, 1263, 1268, 1272, 1272, 1268, 1263, 1258, 0,
  0, 1258, 1263, 1268, 1272, 1272, 1268, 1263, 1258, 0,
  0, 1258, 1263, 1268, 1272, 1272, 1268, 1263, 1258, 0,
  0, 1258, 1263, 1268, 1272, 1272, 1268, 1263, 1258, 0,
  0, 1258, 1263, 1268, 1272, 1272, 1268, 1263, 1258, 0,
  0, 1258, 1263, 1268, 1272, 1272, 1268, 1263, 1258, 0,
  0, 1258, 1263, 1268, 1272, 1272, 1268, 1263, 1258, 0,
  0, 0, 0, 0, 0, 0, 0, 0, 0, 0,
  0, 0, 0, 0, 0, 0, 0, 0, 0, 0]

def pstG : List Int := [
  0, 0, 0, 0, 0, 0, 0, 0, 0, 0,
  0, 0, 0, 0, 0, 0, 0, 0, 0, 0,
  0, 1258, 1263, 1263, 1263, 1263, 1263, 1263, 1258, 0,
  0, 1258, 1263, 1263, 1263, 1263, 1263, 1263, 1258, 0,
  0, 1258, 1263, 1268, 1272, 1272, 1268, 1263, 1258, 0,
  0, 1258, 1263, 1268, 1272, 1272, 1268, 1263, 1258, 0,
  0, 1258, 1263, 1268, 1272, 1272, 1268, 1263, 1258, 0,
  0, 1258, 1263, 1268, 1272, 1272, 1268, 1263, 1258, 0,
  0, 1258, 1263, 1268, 1272, 1272, 1268, 1263, 1258, 0,
  0, 1234, 1234, 1234, 1234, 1234, 1234, 1234, 1234, 0,
  0, 0, 0, 0, 0, 0, 0, 0, 0, 0,
  0, 0, 0, 0, 0, 0, 0, 0, 0, 0]

def pstE : List Int := [
  0, 0, 0, 0, 0, 0, 0, 0, 0, 0,
  0, 0, 0, 0, 0, 0, 0, 0, 0, 0,
  0, 1258, 1263, 1268, 1272, 1272, 1268, 1263, 1258, 0,
  0, 1258, 1263, 1268, 1272, 1272, 1268, 1263, 1258, 0,
  0, 1258, 1263, 1268, 1272, 1272, 1268, 1263, 1258, 0,
  0, 1258, 1263, 1268, 1272, 1272, 1268, 1263, 1258, 0,
  0, 1258, 1263, 1268, 1272, 1272, 1268, 1263, 1258, 0,
  0, 1258, 1263, 1268, 1272, 1272, 1268, 1263, 1258, 0,
  0, 1258, 1263, 1268, 1272, 1272, 1268, 1263, 1258, 0,
  0, 1258, 1263, 1268, 1272, 1272, 1268, 1263, 1258, 0,
  0, 0, 0, 0, 0, 0, 0, 0, 0, 0,
  0, 0, 0, 0, 0, 0, 0, 0, 0, 0]

def pstQ : List Int := [
  0, 0, 0, 0, 0, 0, 0, 0, 0, 0,
  0, 0, 0, 0, 0, 0, 0, 0, 0, 0,
  0, 2529, 2529, 2529, 2529, 2529, 2529, 2529, 2529, 0,
  0, 2529, 2529, 2529, 2529, 2529, 2529, 2529, 2529, 0,
  0, 2529, 2529, 2529, 2529, 2529, 2529, 2529, 2529, 0,
  0, 2529, 2529, 2529, 2529, 2529, 2529, 2529, 2529, 0,
  0, 2529, 2529, 2529, 2529, 2529, 2529, 2529, 2529, 0,
  0, 2529, 2529, 2529, 2529, 2529, 2529, 2529, 2529, 0,
  0, 2529, 2529, 2529, 2529, 2529, 2529, 2529, 2529, 0,
  0, 2529, 2529, 2529, 2529, 2529, 2529, 2529, 2529, 0,
  0, 0, 0, 0, 0, 0, 0, 0, 0, 0,
  0, 0, 0, 0, 0, 0, 0, 0, 0, 0]

def pstM : List Int := [
  0, 0, 0, 0, 0, 0, 0, 0, 0, 0,
  0, 0, 0, 0, 0, 0, 0, 0, 0, 0,
  0, 2200, 2600, 2600, 2600, 2600, 2600, 2600, 2200, 0,
  0, 2200, 2500, 2500, 2500, 2500, 2500, 2500, 2200, 0,
  0, 2200, 2500, 2500, 2500, 2500, 2500, 2500, 2200, 0,
  0, 2200, 2500, 2500, 2500, 2500, 2500, 2500, 2200, 0,
  0, 2200, 2500, 2500, 2500, 2500, 2500, 2500, 2200, 0,
  0, 2200, 2500, 2500, 2500, 2500, 2500, 2500, 2200, 0,
  0, 2200, 2500, 2500, 2500, 2500, 2500, 2500, 2200, 0,
  0, 1900, 1900, 1900, 1900, 1900, 1900, 1900, 1900, 0,
  0, 0, 0, 0, 0, 0, 0, 0, 0, 0,
  0, 0, 0, 0, 0, 0, 0, 0, 0, 0]

def pstO : List Int := [
  0, 0, 0, 0, 0, 0, 0, 0, 0, 0,
  0, 0, 0, 0, 0, 0, 0, 0, 0, 0,
  0, 2529, 2529, 2529, 2529, 2529, 2529, 2529, 2529, 0,
  0, 2529, 2529, 2529, 2529, 2529, 2529, 2529, 2529, 0,
  0, 2529, 2529, 2529, 2529, 2529, 2529, 2529, 2529, 0,
  0, 2529, 2529, 2529, 2529, 2529, 2529, 2529, 2529, 0,
  0, 2529, 2529, 2529, 2529, 2529, 2529, 2529, 2529, 0,
  0, 2529, 2529, 2529, 2529, 2529, 2529, 2529, 2529, 0,
  0, 2529, 2529, 2529, 2529, 2529, 2529, 2529, 2529, 0,
  0, 2529, 2529, 2529, 2529, 2529, 2529, 2529, 2529, 0,
  0, 0, 0, 0, 0, 0, 0, 0, 0, 0,
  0, 0, 0, 0, 0, 0, 0, 0, 0, 0]

def pstA : List Int := [
  0, 0, 0, 0, 0, 0, 0, 0, 0, 0,
  0, 0, 0, 0, 0, 0, 0, 0, 0, 0,
  0, 0, 0, 0, 0, 0, 0, 0, 0, 0,
  0, 1258, 1263, 1268, 1272, 1272, 1268, 1263, 1258, 0,
  0, 1258, 1263, 1268, 1272, 1272, 1268, 1263, 1258, 0,
  0, 1258, 1263, 1268, 1272, 1272, 1268, 1263, 1258, 0,
  0, 1258, 1263, 1268, 1272, 1272, 1268, 1263, 1258, 0,
  0, 1258, 1263, 1268, 1272, 1272, 1268, 1263, 1258, 0,
  0, 1234, 1234, 1234, 1234, 1234, 1234, 1234, 1234, 0,
  0, 0, 0, 0, 0, 0, 0, 0, 0, 0,
  0, 0, 0, 0, 0, 0, 0, 0, 0, 0]

def pstU : List Int := [
  0, 0, 0, 0, 0, 0, 0, 0, 0, 0,
  0, 0, 0, 0, 0, 0, 0, 0, 0, 0,
  0, 62000, 62000, 62000, 62000, 62000, 62000, 62000, 62000, 0,
  0, 62000, 62000, 62000, 62000, 62000, 62000, 62000, 62000, 0,
  0, 62000, 62000, 62000, 62000, 62000, 62000, 62000, 62000, 0,
  0, 62000, 62000, 62000, 62000, 62000, 62000, 62000, 62000, 0,
  0, 60200, 60325, 60400, 60400, 60400, 60400, 60325, 60200, 0,
  0, 60150, 60250, 60300, 60300, 60300, 60300, 60250, 60150, 0,
  0, 60150, 60175, 60200, 60200, 60200, 60200, 60175, 60150, 0,
  0, 60100, 60100, 60100, 60100, 60100, 60100, 60100, 60100, 0,
  0, 0, 0, 0, 0, 0, 0, 0, 0, 0,
  0, 0, 0, 0, 0, 0, 0, 0, 0, 0]

def pstJ : List Int := [
  0, 0, 0, 0, 0, 0, 0, 0, 0, 0,
  0, 0, 0, 0, 0, 0, 0, 0, 0, 0,
  0, 2529, 2529, 2529, 2529, 2529, 2529, 2529, 2529, 0,
  0, 2529, 2529, 2529, 2529, 2529, 2529, 2529, 2529, 0,
  0, 2529, 2529, 2529, 2529, 2529, 2529, 2529, 2529, 0,
  0, 2529, 2529, 2529, 2529, 2529, 2529, 2529, 2529, 0,
  0, 2529, 2529, 2529, 2529, 2529, 2529, 2529, 2529, 0,
  0, 2529, 2529, 2529, 2529, 2529, 2529, 2529, 2529, 0,
  0, 2529, 2529, 2529, 2529, 2529, 2529, 2529, 2529, 0,
  0, 2529, 2529, 2529, 2529, 2529, 2529, 2529, 2529, 0,
  0, 0, 0, 0, 0, 0, 0, 0, 0, 0,
  0, 0, 0, 0, 0, 0, 0, 0, 0, 0]

def pstK : List Int := [
  0, 0, 0, 0, 0, 0, 0, 0, 0, 0,
  0, 0, 0, 0, 0, 0, 0, 0, 0, 0,
  0, 60098, 60132, 60073, 60025, 60025, 60073, 60132, 60098, 0,
  0, 60119, 60153, 60094, 60046, 60046, 60094, 60153, 60119, 0,
  0, 60146, 60180, 60121, 60073, 60073, 60121, 60180, 60146, 0,
  0, 61000, 61000, 61000, 61000, 61000, 61000, 61000, 61000, 0,
  0, 60196, 60230, 60171, 60123, 60123, 60171, 60230, 60196, 0,
  0, 60224, 60258, 60199, 60151, 60151, 60199, 60258, 60224, 0,
  0, 60287, 60321, 60262, 60214, 60214, 60262, 60321, 60287, 0,
  0, 60298, 60332, 60273, 60225, 60225, 60273, 60332, 60298, 0,
  0, 0, 0, 0, 0, 0, 0, 0, 0, 0,
  0, 0, 0, 0, 0, 0, 0, 0, 0, 0]

def pstW : List Int := [
  0, 0, 0, 0, 0, 0, 0, 0, 0, 0,
  0, 0, 0, 0, 0, 0, 0, 0, 0, 0,
  0, 62000, 62000, 62000, 62000, 62000, 62000, 62000, 62000, 0,
  0, 62000, 62000, 62000, 62000, 62000, 62000, 62000, 62000, 0,
  0, 62000, 62000, 62000, 62000, 62000, 62000, 62000, 62000, 0,
  0, 62000, 62000, 62000, 62000, 62000, 62000, 62000, 62000, 0,
  0, 60200, 60325, 60400, 60400, 60400, 60400, 60325, 60200, 0,
  0, 60150, 60250, 60300, 60300, 60300, 60300, 60250, 60150, 0,
  0, 60150, 60175, 60200, 60200, 60200, 60200, 60175, 60150, 0,
  0, 60100, 60100, 60100, 60100, 60100, 60100, 60100, 60100, 0,
  0, 0, 0, 0, 0, 0, 0, 0, 0, 0,
  0, 0, 0, 0, 0, 0, 0, 0, 0, 0]

def pstC : List Int := [
  0, 0, 0, 0, 0, 0, 0, 0, 0, 0,
  0, 0, 0, 0, 0, 0, 0, 0, 0, 0,
  0, 60098, 60132, 60073, 60025, 60025, 60073, 60132, 60098, 0,
  0, 60119, 60153, 60094, 60046, 60046, 60094, 60153, 60119, 0,
  0, 60146, 60180, 60121, 60073, 60073, 60121, 60180, 60146, 0,
  0, 61000, 61000, 61000, 61000, 61000, 61000, 61000, 61000, 0,
  0, 60196, 60230, 60171, 60123, 60123, 60171, 60230, 60196, 0,
  0, 60224, 60258, 60199, 60151, 60151, 60199, 60258, 60224, 0,
  0, 60287, 60321, 60262, 60214, 60214, 60262, 60321, 60287, 0,
  0, 60298, 60332, 60273, 60225, 60225, 60273, 60332, 60298, 0,
  0, 0, 0, 0, 0, 0, 0, 0, 0, 0,
  0, 0, 0, 0, 0, 0, 0, 0, 0, 0]
/-- The `pst` map: piece-square table for each piece letter (the source's
table for the Reaper 'A' really has only 110 entries). -/
def pstTab (p : Char) : List Int :=
  match p with
  | 'P' => pstP
  | 'L' => pstL
  | 'B' => pstB
  | 'X' => pstX
  | 'T' => pstT
  | 'N' => pstN
  | 'Y' => pstY
  | 'H' => pstH
  | 'R' => pstR
  | 'Z' => pstZ
  | 'G' => pstG
  | 'E' => pstE
  | 'Q' => pstQ
  | 'M' => pstM
  | 'O' => pstO
  | 'A' => pstA
  | 'U' => pstU
  | 'J' => pstJ
  | 'K' => pstK
  | 'W' => pstW
  | 'C' => pstC
  | _ => []

/-- `pst[p][i]` (used only at nonnegative, in-range indices). -/
def pstAt (p : Char) (i : Int) : Int :=
  if i < 0 then 0 else (pstTab p).getD i.toNat 0

/-- The `directions` map of the source: direction deltas, or absolute
destination squares for the Reaper pieces 'A' and 'G'. -/
def directions (p : Char) : List Int :=
  match p with
  | 'P' => [-10, -20, -11, -9]
  | 'L' => [-10, 1, 10, -1, -9, 11, 9, -11]
  | 'B' => [-9, 11, 9, -11]
  | 'X' => [-10, 1, 10, -1, -9, 11, 9, -11, -19, -8, 12, 21, 19, 8, -12, -21]
  | 'T' => [-9, 11, 9, -11, -18, 22, 18, -22]
  | 'N' => [-19, -8, 12, 21, 19, 8, -12, -21]
  | 'Y' => [-10, 1, 10, -1, -9, 11, 9, -11, -19, -8, 12, 21, 19, 8, -12, -21]
  | 'H' => [-19, -8, 12, 21, 19, 8, -12, -21]
  | 'R' => [-10, 1, 10, -1]
  | 'Z' => [-10, 1, 10, -1, -9, 11, 9, -11, -19, -8, 12, 21, 19, 8, -12, -21]
  | 'G' => [21, 22, 23, 24, 25, 26, 27, 28, 31, 32, 33, 34, 35, 36, 37, 38, 41, 42, 43, 44, 45, 46, 47, 48, 51, 52, 53, 54, 55, 56, 57, 58, 61, 62, 63, 64, 65, 66, 67, 68, 71, 72, 73, 74, 75, 76, 77, 78, 81, 82, 83, 84, 85, 86, 87, 88]
  | 'E' => [-10, 1, 10, -1]
  | 'Q' => [-10, 1, 10, -1, -9, 11, 9, -11]
  | 'M' => [-10, 1, 10, -1, -9, 11, 9, -11]
  | 'O' => [-10, 1, 10, -1, -9, 11, 9, -11]
  | 'A' => [31, 32, 33, 34, 35, 36, 37, 38, 41, 42, 43, 44, 45, 46, 47, 48, 51, 52, 53, 54, 55, 56, 57, 58, 61, 62, 63, 64, 65, 66, 67, 68, 71, 72, 73, 74, 75, 76, 77, 78, 81, 82, 83, 84, 85, 86, 87, 88]
  | 'U' => [-10, 1, 10, -1, 0, -9, 11, 9, -11]
  | 'J' => [-10, 1, 10, -1, -19, -8, 12, 21, 19, 8, -12, -21]
  | 'K' => [-10, 1, 10, -1, -9, 11, 9, -11]
  | 'W' => [-10, 1, 10, -1, 0, -9, 11, 9, -11]
  | 'C' => [-10, 1, 10, -1, -9, 11, 9, -11]  | _ => []

/-- A state of a chess game, the source's `Position` namedtuple. -/
structure Position where
  board : List Char
  color : Bool
  second : Bool
  score : Int
  wa : Int
  ba : Int
  ws : Int
  bs : Int
  wc : Bool × Bool
  bc : Bool × Bool
  ep : Int
  kp : Int
deriving DecidableEq

/-- The source's `Position.isPieceInvulnerable`. -/
def isPieceInvulnerable (b : List Char) (fromPos toPos : Int) : Bool :=
  let pf := boardGet b fromPos
  let pt := boardGet b toPos
  ((if pf == 'K' || pf == 'W' || pf == 'U' || pf == 'C' then
      pt == 'g' || pt == ' ' || pt == '\n'
    else if pf == 'E' then
      pt == 'C' || pt == 'm' || pt == 'g' || pt == ' ' || pt == '\n'
    else
      pt == 'm' || pt == 'g' || pt == ' ' || pt == '\n') ||
   ((pt == 'e' || pt == ' ' || pt == '\n') && 3 ≤ distance fromPos toPos))

/-- The source's `Position.rotate`. -/
def Position.rotate (p : Position) : Position :=
  { board := (p.board.reverse.map swapcase)
    color := !p.color
    second := false
    score := -p.score
    wa := p.ba
    ba := p.wa
    ws := p.bs
    bs := p.ws
    wc := p.bc
    bc := p.wc
    ep := 119 - (if p.ep = 0 then 119 else p.ep)
    kp := 119 - (if p.kp = 0 then 119 else p.kp) }

def knightDirs : List Int := [2*N+E, N+2*E, S+2*E, 2*S+E, 2*S+W, S+2*W, N+2*W, 2*N+W]

def diagDirs : List Int := [N+E, S+E, S+W, N+W]

def orthoDirs : List Int := [N, E, S, W]

def compassDirs : List Int := [N, E, S, W, N+E, S+E, S+W, N+W]

/-- The static part of the `crawlers` list rebuilt at every ray step. -/
def crawlerBase : List Char := ['P', 'L', 'T', 'N', 'H', 'O', 'U', 'K', 'W', 'C']

/-- The whirlwind blocking test: some compass neighbor of `i` holds a
Warrior royal 'U' or 'W'. -/
def whirlwindCant (b : List Char) (i : Int) : Bool :=
  compassDirs.any fun dr => boardGet b (i + dr) == 'U' || boardGet b (i + dr) == 'W'

/-- One iteration of the Empowered pieces' orthogonal-neighbor loop:
the moves yielded for neighbor offset `dr`, and whether the piece was
added to the `crawlers` list in this iteration. -/
def xyzOne (b : List Char) (i j d : Int) (p : Char) (dr : Int) : List (Int × Int) × Bool :=
  if p = 'X' then
    if d ∈ diagDirs then ([(i, j)], false)
    else if boardGet b (i + dr) = 'Y' ∧ d ∈ knightDirs then ([(i, j)], true)
    else if boardGet b (i + dr) = 'Z' ∧ d ∈ orthoDirs then ([(i, j)], false)
    else ([], false)
  else if p = 'Y' then
    if boardGet b (i + dr) = 'X' ∧ d ∈ diagDirs then ([(i, j)], false)
    else if d ∈ knightDirs then ([(i, j)], true)
    else if boardGet b (i + dr) = 'Z' ∧ d ∈ orthoDirs then ([(i, j)], false)
    else ([], false)
  else
    if boardGet b (i + dr) = 'X' ∧ d ∈ diagDirs then ([(i, j)], false)
    else if boardGet b (i + dr) = 'Y' ∧ d ∈ knightDirs then ([(i, j)], true)
    else if d ∈ orthoDirs then ([(i, j)], false)
    else ([], false)

/-- The whole Empowered-piece neighbor loop (four iterations, in order):
all yielded moves, and whether the piece entered the `crawlers` list. -/
def xyzYields (b : List Char) (i j d : Int) (p : Char) : List (Int × Int) × Bool :=
  let rs := orthoDirs.map (xyzOne b i j d p)
  (rs.flatMap Prod.fst, rs.any Prod.snd)

/-- The Nemesis pawn octant test against one opposing royal at square `k`. -/
def lRoyalYield (i j d : Int) (k : Int) : List (Int × Int) :=
  if 0 < i / 10 - k / 10 then
    if 0 < i % 10 - k % 10 then (if d = N ∨ d = W ∨ d = N+W then [(i, j)] else [])
    else if i % 10 - k % 10 = 0 then (if d = N then [(i, j)] else [])
    else (if d = N ∨ d = E ∨ d = N+E then [(i, j)] else [])
  else if i / 10 - k / 10 = 0 then
    if 0 < i % 10 - k % 10 then (if d = W then [(i, j)] else [])
    else if i % 10 - k % 10 < 0 then (if d = E then [(i, j)] else [])
    else []
  else
    if 0 < i % 10 - k % 10 then (if d = S ∨ d = W ∨ d = S+W then [(i, j)] else [])
    else if i % 10 - k % 10 = 0 then (if d = S then [(i, j)] else [])
    else (if d = S ∨ d = E ∨ d = S+E then [(i, j)] else [])

/-- One direction of generation on the Two Kings Warrior King bonus
sub-turn (the inner loop always breaks after its first step). -/
def secondMoves (pos : Position) (i : Int) (p : Char) (d : Int) : List (Int × Int) :=
  if ¬(p = 'U' ∨ p = 'W') then []
  else if isspace (boardGet pos.board (i + d)) then []
  else if (boardGet pos.board (i + d)).isUpper then []
  else if d = H then (if whirlwindCant pos.board i then [] else [(i, i + d)])
  else [(i, i + d)]

/-- The Reaper 'A' destination loop: invulnerable targets are skipped, a
friendly target stops the whole loop, anything else is yielded. -/
def reaperMoves (pos : Position) (i : Int) : List Int → List (Int × Int)
  | [] => []
  | d :: ds =>
    if isPieceInvulnerable pos.board i d then reaperMoves pos i ds
    else if (boardGet pos.board d).isUpper then []
    else (i, d) :: reaperMoves pos i ds

/-- The castling detection yields of one ray step (source lines 482-486):
when scanning from a corner the ray meets the friendly king with the
matching right intact, a move from the king two files sideways is
yielded. -/
def castleYields (pos : Position) (i j : Int) : List (Int × Int) :=
  (if i = A1 ∧ boardGet pos.board j = 'K' ∧ pos.wc.1 = true then [(j, j - 2)] else []) ++
  (if i = H1 ∧ boardGet pos.board j = 'K' ∧ pos.wc.2 = true then [(j, j + 2)] else [])

/-- The Elephant ride-through condition (source lines 488-495): a
friendly, distinct, non-invulnerable target met by an Elephant that has
not yet used its single ride-through on this ray. -/
def eRideCond (pos : Position) (i j : Int) (p : Char) (el : Bool) : Prop :=
  (boardGet pos.board j).isUpper = true ∧ p ≠ boardGet pos.board j ∧ p = 'E' ∧
  ¬ isPieceInvulnerable pos.board i j ∧ el = false

instance (pos : Position) (i j : Int) (p : Char) (el : Bool) :
    Decidable (eRideCond pos i j p el) := by unfold eRideCond; infer_instance

/-- All moves yielded at a ray step before the main piece dispatch: the
castling yields followed by the Elephant ride-through yield. -/
def rayAcc (pos : Position) (i j : Int) (p : Char) (el : Bool) : List (Int × Int) :=
  castleYields pos i j ++ (if eRideCond pos i j p el then [(i, j)] else [])

/-- The elephant flag after a ray step. -/
def rayEl (pos : Position) (i j : Int) (p : Char) (el : Bool) : Bool :=
  if eRideCond pos i j p el then true else el

/-- The piece-dispatch yields of a ray step (source lines 504-571): the
moves yielded, and whether the piece entered the `crawlers` list. -/
def branchYields (pos : Position) (royal : List Int) (i : Int) (p : Char) (d j : Int) :
    List (Int × Int) × Bool :=
  if p = 'L' then (royal.flatMap (lRoyalYield i j d), false)
  else if p = 'X' ∨ p = 'Y' ∨ p = 'Z' then xyzYields pos.board i j d p
  else if p = 'U' ∨ p = 'W' then
    ((if d = H then (if whirlwindCant pos.board i then [] else [(i, j)]) else [(i, j)]), false)
  else ([(i, j)], false)

/-- One step of the general ray loop, the body of the source loop
`for j in count(i+d, d)`: the moves yielded at square `j`, the updated
elephant ride-through flag, and whether the ray continues to `j + d`. -/
def rayStep (pos : Position) (royal : List Int) (i : Int) (p : Char) (d : Int)
    (j : Int) (el : Bool) : List (Int × Int) × Bool × Bool :=
  if isspace (boardGet pos.board j) then ([], el, false)
  else if (boardGet pos.board j).isUpper ∧ p ≠ boardGet pos.board j ∧ p ≠ 'H' ∧ p ≠ 'E' then
    (castleYields pos i j, el, false)
  else if p = 'P' ∧ (d = N+W ∨ d = N+E) ∧ boardGet pos.board j = '.' ∧
      j ≠ pos.ep ∧ j ≠ pos.kp then
    (rayAcc pos i j p el, rayEl pos i j p el, false)
  else if p = 'P' ∧ (d = N ∨ d = 2*N) ∧ boardGet pos.board j ≠ '.' then
    (rayAcc pos i j p el, rayEl pos i j p el, false)
  else if p = 'P' ∧ d = 2*N ∧ (i < A1 + N ∨ boardGet pos.board (i + N) ≠ '.') then
    (rayAcc pos i j p el, rayEl pos i j p el, false)
  else if isPieceInvulnerable pos.board i j then
    (rayAcc pos i j p el, rayEl pos i j p el, false)
  else if p = 'L' ∧ (d = N ∨ d = E ∨ d = S ∨ d = W ∨ d = S+W ∨ d = S+E) ∧
      boardGet pos.board j ≠ '.' then
    (rayAcc pos i j p el, rayEl pos i j p el, false)
  else if p = 'T' ∧ (d = 2*(N+E) ∨ d = 2*(S+E) ∨ d = 2*(S+W) ∨ d = 2*(N+W)) ∧
      (boardGet pos.board (i + d / 2)).isUpper then
    (rayAcc pos i j p el, rayEl pos i j p el, false)
  else if p = 'M' ∧ ¬(boardGet pos.board j = 'k' ∨ boardGet pos.board j = 'u' ∨
      boardGet pos.board j = 'w' ∨ boardGet pos.board j = 'c' ∨ boardGet pos.board j = '.') then
    (rayAcc pos i j p el, rayEl pos i j p el, false)
  else if p = 'E' ∧ 4 < distance i j then
    (rayAcc pos i j p el ++ (branchYields pos royal i p d j).1, rayEl pos i j p el, false)
  else if p = 'E' ∧ (boardGet pos.board (j - d)).isUpper then
    (rayAcc pos i j p el ++ (branchYields pos royal i p d j).1, rayEl pos i j p el, false)
  else if p = 'J' ∧ d ∈ knightDirs then
    (rayAcc pos i j p el ++ (branchYields pos royal i p d j).1, rayEl pos i j p el, false)
  else if p ∈ crawlerBase ∨ (branchYields pos royal i p d j).2 = true then
    (rayAcc pos i j p el ++ (branchYields pos royal i p d j).1, rayEl pos i j p el, false)
  else if (boardGet pos.board j).isLower then
    (rayAcc pos i j p el ++ (branchYields pos royal i p d j).1, rayEl pos i j p el, false)
  else
    (rayAcc pos i j p el ++ (branchYields pos royal i p d j).1, rayEl pos i j p el, true)

/-- One ray of the general move generator, from square `j` onwards.  The
fuel only bounds the recursion; a ray always meets the whitespace
sentinel (or a break rule) long before 200 steps. -/
def rayGo (pos : Position) (royal : List Int) (i : Int) (p : Char) (d : Int) :
    Int → Bool → Nat → List (Int × Int)
  | _, _, 0 => []
  | j, el, fuel+1 =>
    let st := rayStep pos royal i p d j el
    st.1 ++ (if st.2.2 = true then rayGo pos royal i p d (j + d) st.2.1 fuel else [])

/-- The squares holding an opposing royal ('k', 'c', 'u' or 'w'), in
board-scan order. -/
def royalList (b : List Char) : List Int :=
  (List.range b.length).filterMap fun n =>
    if boardGet b n = 'k' ∨ boardGet b n = 'c' ∨ boardGet b n = 'u' ∨ boardGet b n = 'w'
    then some (n : Int) else none

/-- The source's `Position.genMoves(second)`, as the list of `(from, to)`
pairs in emission order. -/
def genMoves (pos : Position) (sec : Bool) : List (Int × Int) :=
  let royal := royalList pos.board
  (List.range pos.board.length).flatMap fun n =>
    let i : Int := n
    let p := boardGet pos.board i
    if p.isUpper = false then []
    else if sec then (directions p).flatMap (secondMoves pos i p)
    else if p = 'A' then reaperMoves pos i (directions 'A')
    else if p = 'G' then
      (directions 'G').flatMap fun d =>
        if boardGet pos.board d = '.' then [(i, d)] else []
    else (directions p).flatMap fun d => rayGo pos royal i p d (i + d) false 200

/-- The source's `Position.value(move)`: the score delta of a move. -/
def Position.value (pos : Position) (m : Int × Int) : Int :=
  let i := m.1
  let j := m.2
  let p := boardGet pos.board i
  let q := boardGet pos.board j
  let score := pstAt p j - pstAt p i
  let score := if q.isLower then score + pstAt q.toUpper j else score
  let score := if q.isUpper then score - (pstAt q j) / 2 else score
  let score := if (j - pos.kp).natAbs < 2 then score + pstAt 'K' j else score
  let score :=
    if p = 'K' ∧ (i - j).natAbs = 2 then
      score + pstAt 'R' ((i + j) / 2) - pstAt 'R' (if j < i then A1 else H1)
    else score
  let score :=
    if p = 'P' then
      let s2 := if A8 ≤ j ∧ j ≤ H8 then score + pstAt 'Q' j - pstAt 'P' j else score
      if j = pos.ep then s2 + pstAt 'P' (j + S) else s2
    else score
  let score :=
    if (p = 'K' ∨ p = 'U' ∨ p = 'W' ∨ p = 'C') ∧ 50 < i ∧ i < 59 then MIDLINE_VALUE
    else score
  if q.isUpper ∧ (q = 'K' ∨ q = 'U' ∨ q = 'W' ∨ q = 'C') then -30000 else score

/-- The Warrior whirlwind effect in `move`: clear every compass neighbor
that is not off-board. -/
def whirlwindClear (b : List Char) (i : Int) : List Char :=
  compassDirs.foldl
    (fun bb dr => if isspace (boardGet bb (i + dr)) then bb else put bb (i + dr) '.') b

/-- The Elephant rampage loop of `move`, iterating `dr` over
`range(abs(4 - distance(i, j)))` and skipping `dr == 0`; the direction is
recovered from the geometry of `i` and `j` exactly as in the source. -/
def rampageLoop (i j : Int) (b : List Char) : List Nat → List Char
  | [] => b
  | dr :: drs =>
    if dr = 0 then rampageLoop i j b drs
    else
      if i / 10 - j / 10 = 0 then
        if i - j < 0 then
          if ¬ isPieceInvulnerable b (j + ((dr / 2 : Nat) : Int)) (j + (dr : Int)) then
            rampageLoop i j (put (put b (j + (dr : Int)) 'E') (j + ((dr / 2 : Nat) : Int)) '.') drs
          else b
        else
          if ¬ isPieceInvulnerable b (j - ((dr / 2 : Nat) : Int)) (j - (dr : Int)) then
            rampageLoop i j (put (put b (j - (dr : Int)) 'E') (j - ((dr / 2 : Nat) : Int)) '.') drs
          else b
      else
        if 0 < i - j then
          if ¬ isPieceInvulnerable b (j - ((dr / 2 : Nat) : Int) * 10) (j - (dr : Int) * 10) then
            rampageLoop i j
              (put (put b (j - (dr : Int) * 10) 'E') (j - ((dr / 2 : Nat) : Int) * 10) '.') drs
          else b
        else
          if ¬ isPieceInvulnerable b (j + ((dr / 2 : Nat) : Int) * 10) (j + (dr : Int) * 10) then
            rampageLoop i j
              (put (put b (j + (dr : Int) * 10) 'E') (j + ((dr / 2 : Nat) : Int) * 10) '.') drs
          else b

/-- The piece-specific board effect of `Position.move` (Tiger kill in
place, Elephant rampage, Warrior whirlwind, conditional Nemesis Queen
move, or the standard move). -/
def pieceEffect (pos : Position) (m : Int × Int) : List Char :=
  if boardGet pos.board m.1 = 'T' ∧ boardGet pos.board m.2 ≠ '.' then
    put pos.board m.2 '.'
  else if boardGet pos.board m.1 = 'E' ∧ boardGet pos.board m.2 ≠ '.' then
    if 0 < 3 - distance m.1 m.2 then
      rampageLoop m.1 m.2 (put (put pos.board m.2 (boardGet pos.board m.1)) m.1 '.')
        (List.range (4 - distance m.1 m.2).natAbs)
    else put (put pos.board m.2 (boardGet pos.board m.1)) m.1 '.'
  else if boardGet pos.board m.1 = 'U' ∨ boardGet pos.board m.1 = 'W' then
    if m.1 = m.2 then whirlwindClear pos.board m.1
    else put (put pos.board m.2 (boardGet pos.board m.1)) m.1 '.'
  else if boardGet pos.board m.1 = 'M' then
    if boardGet pos.board m.2 = '.' ∨ boardGet pos.board m.2 = 'k' ∨
        boardGet pos.board m.2 = 'u' ∨ boardGet pos.board m.2 = 'w' ∨
        boardGet pos.board m.2 = 'c' then
      put (put pos.board m.2 (boardGet pos.board m.1)) m.1 '.'
    else pos.board
  else put (put pos.board m.2 (boardGet pos.board m.1)) m.1 '.'

/-- The castling rook motion of `Position.move` applied to the board `b`. -/
def castleEffect (pos : Position) (m : Int × Int) (b : List Char) : List Char :=
  if boardGet pos.board m.1 = 'K' ∧ (m.2 - m.1).natAbs = 2 then
    put (put b (if m.2 < m.1 then A1 else H1) '.') ((m.1 + m.2) / 2) 'R'
  else b

/-- The special pawn effects of `Position.move` (promotion and the
en-passant capture clearing) applied to the board `b`. -/
def pawnEffect (pos : Position) (m : Int × Int) (b : List Char) : List Char :=
  if boardGet pos.board m.1 = 'P' then
    let b2 := if A8 ≤ m.2 ∧ m.2 ≤ H8 then put b m.2 'Q' else b
    if (m.2 - m.1 = N + W ∨ m.2 - m.1 = N + E) ∧ boardGet pos.board m.2 = '.' then
      put b2 (m.2 + S) '.'
    else b2
  else b

/-- The board produced by `Position.move` (the local `board` variable of
the source at the point the successor `Position` is assembled). -/
def Position.moveBoard (pos : Position) (m : Int × Int) : List Char :=
  pawnEffect pos m (castleEffect pos m (pieceEffect pos m))

/-- Our castling rights after `move`. -/
def moveWc (pos : Position) (m : Int × Int) : Bool × Bool :=
  let wc := pos.wc
  let wc := if m.1 = A1 then (false, wc.2) else wc
  let wc := if m.1 = H1 then (wc.1, false) else wc
  if boardGet pos.board m.1 = 'K' then (false, false) else wc

/-- Opponent castling rights after `move`. -/
def moveBc (pos : Position) (m : Int × Int) : Bool × Bool :=
  let bc := pos.bc
  let bc := if m.2 = A8 then (bc.1, false) else bc
  if m.2 = H8 then (false, bc.2) else bc

/-- The en passant square after `move`. -/
def moveEp (pos : Position) (m : Int × Int) : Int :=
  if boardGet pos.board m.1 = 'P' ∧ m.2 - m.1 = N * 2 then m.1 + N else 0

/-- The king passant square after `move`. -/
def moveKp (pos : Position) (m : Int × Int) : Int :=
  if boardGet pos.board m.1 = 'K' ∧ (m.2 - m.1).natAbs = 2 then (m.1 + m.2) / 2 else 0

/-- The source's `Position.move`: apply a move, then rotate, except that
a non-second move with `wa == 5` (Two Kings) keeps the side to move and
sets the `second` flag. -/
def Position.move (pos : Position) (m : Int × Int) : Position :=
  let board := pos.moveBoard m
  let score := pos.score + pos.value m
  if pos.second then
    (Position.mk board pos.color false score pos.wa pos.ba pos.ws pos.bs
      (moveWc pos m) (moveBc pos m) (moveEp pos m) (moveKp pos m)).rotate
  else if pos.wa = 5 then
    Position.mk board pos.color true score pos.wa pos.ba pos.ws pos.bs
      (moveWc pos m) (moveBc pos m) (moveEp pos m) (moveKp pos m)
  else
    (Position.mk board pos.color false score pos.wa pos.ba pos.ws pos.bs
      (moveWc pos m) (moveBc pos m) (moveEp pos m) (moveKp pos m)).rotate

/-! ## The section-3 data-model invariants -/

/-- A playable square: rank 2..9 and file 1..8 of the 10-wide mailbox. -/
def playable (s : Int) : Prop :=
  2 ≤ s / 10 ∧ s / 10 ≤ 9 ∧ 1 ≤ s % 10 ∧ s % 10 ≤ 8

instance (s : Int) : Decidable (playable s) := by unfold playable; infer_instance

/-- The characters a playable cell may hold: a piece letter of either
side, or the empty-square dot. -/
def cellChars : List Char :=
  ['P', 'L', 'B', 'X', 'T', 'N', 'Y', 'H', 'R', 'Z', 'G', 'E', 'Q', 'M', 'O', 'A', 'U',
   'J', 'K', 'W', 'C', 'p', 'l', 'b', 'x', 't', 'n', 'y', 'h', 'r', 'z', 'g', 'e', 'q',
   'm', 'o', 'a', 'u', 'j', 'k', 'w', 'c', '.']

/-- The section-3 invariants of a legal `Position`: a 120-cell board whose
playable squares hold pieces or dots and whose other squares hold the
whitespace sentinels, with `ep` and `kp` zero or playable. -/
def WF (pos : Position) : Prop :=
  pos.board.length = 120 ∧
  (∀ n : Nat, n < 120 →
    (playable (n : Int) → boardGet pos.board n ∈ cellChars) ∧
    (¬ playable (n : Int) → boardGet pos.board n = ' ' ∨ boardGet pos.board n = '\n')) ∧
  (pos.ep = 0 ∨ playable pos.ep) ∧
  (pos.kp = 0 ∨ playable pos.kp)

instance (pos : Position) : Decidable (WF pos) := by unfold WF; infer_instance

theorem playable_bounds {s : Int} (h : playable s) : 21 ≤ s ∧ s ≤ 98 := by
  unfold playable at h; omega

theorem boardGet_eq_getElem {b : List Char} {n : Nat} (hn : n < b.length) :
    boardGet b (n : Int) = b[n] := by
  unfold boardGet
  rw [if_neg (by omega)]
  simp [Int.toNat_natCast, List.getD_eq_getElem?_getD, List.getElem?_eq_getElem hn]

theorem boardGet_oob {b : List Char} {s : Int} (hs : b.length ≤ s) :
    boardGet b s = ' ' := by
  unfold boardGet
  rw [if_neg (by omega)]
  have : b.length ≤ s.toNat := by omega
  simp [List.getD_eq_getElem?_getD, List.getElem?_eq_none this]

/-- Every cell of a well-formed board is a piece letter, a dot, or a
whitespace sentinel. -/
theorem wf_cell {pos : Position} (h : WF pos) {c : Char} (hc : c ∈ pos.board) :
    c ∈ cellChars ∨ c = ' ' ∨ c = '\n' := by
  obtain ⟨n, hn, rfl⟩ := List.mem_iff_getElem.mp hc
  have h120 : n < 120 := by rw [h.1] at hn; exact hn
  have hb := (h.2.1 n h120)
  rw [← boardGet_eq_getElem hn]
  by_cases hp : playable (n : Int)
  · exact Or.inl (hb.1 hp)
  · exact Or.inr (hb.2 hp)

/-- On a well-formed board, a non-whitespace cell lies on a playable
square. -/
theorem wf_playable_of_nonspace {pos : Position} (h : WF pos) {s : Int}
    (h1 : boardGet pos.board s ≠ ' ') (h2 : boardGet pos.board s ≠ '\n') :
    playable s := by
  by_cases hneg : s < 0
  · exact absurd (by unfold boardGet; rw [if_pos hneg]) h1
  · by_cases hbig : (120 : Int) ≤ s
    · have hl := h.1
      exact absurd (boardGet_oob (by omega)) h1
    · have hs : s = ((s.toNat : Nat) : Int) := by omega
      have hlt : s.toNat < 120 := by omega
      by_contra hp
      rcases (h.2.1 s.toNat hlt).2 (by rwa [← hs]) with hsp | hsp <;>
        rw [hs] at h1 h2 <;> [exact h1 hsp; exact h2 hsp]

/-- On a well-formed board, an uppercase piece lies on a playable square. -/
theorem wf_playable_of_upper {pos : Position} (h : WF pos) {s : Int}
    (hu : (boardGet pos.board s).isUpper = true) : playable s := by
  refine wf_playable_of_nonspace h ?_ ?_ <;> intro hc <;> rw [hc] at hu <;> simp at hu

/-- Applying `swapcase` twice to any character a legal board can hold
gives the character back. -/
theorem swapcase_swapcase {c : Char} (h : c ∈ cellChars ∨ c = ' ' ∨ c = '\n') :
    swapcase (swapcase c) = c := by
  rcases h with h | rfl | rfl
  · fin_cases h <;> decide
  · decide
  · decide

theorem double_reverse_swap {b : List Char}
    (h : ∀ c ∈ b, swapcase (swapcase c) = c) :
    ((b.reverse.map swapcase).reverse.map swapcase) = b := by
  rw [← List.map_reverse, List.reverse_reverse, List.map_map]
  calc b.map (swapcase ∘ swapcase) = b.map id := List.map_congr_left (by simpa using h)
  _ = b := List.map_id b

/-! ## Concrete positions used in the theorems below -/

/-- The classic-armies starting board (section 6 of the specification,
with Black's back rank reversed and lowercased). -/
def classicBoard : List Char :=
  ("         \n         \n rnbkqbnr\n pppppppp\n ........\n ........\n ........\n ........\n PPPPPPPP\n RNBQKBNR\n         \n          ").toList

/-- The classic-armies starting position. -/
def classicPos : Position :=
  ⟨classicBoard, false, false, 0, 1, 1, 3, 3, (true, true), (true, true), 0, 0⟩

/-- A legal Two Kings position whose `second` flag is set. -/
def secondFlagPos : Position :=
  ⟨("         \n         \n rnbuwbnr\n pppppppp\n ........\n ........\n ........\n ........\n PPPPPPPP\n RNBUWBNR\n         \n          ").toList,
   false, true, 0, 5, 5, 3, 3, (true, true), (true, true), 0, 0⟩

/-! ## C2: rotation is an involution -/

/-- C2 (counterexample): `rotate` unconditionally clears the `second`
flag, so on a legal position whose `second` flag is set,
`rotate (rotate p)` differs from `p`. -/
theorem rotate_rotate_ne_of_second :
    WF secondFlagPos ∧ secondFlagPos.second = true ∧
      secondFlagPos.rotate.rotate ≠ secondFlagPos := by
  refine ⟨by decide, rfl, by decide⟩

/-- C2 (amended): for every legal Position whose `second` flag is clear,
`rotate (rotate p) = p`, the equality structural over all twelve fields. -/
theorem rotate_rotate_eq (pos : Position) (hwf : WF pos) (h2 : pos.second = false) :
    pos.rotate.rotate = pos := by
  have hb : ((pos.board.reverse.map swapcase).reverse.map swapcase) = pos.board :=
    double_reverse_swap fun c hc => swapcase_swapcase (wf_cell hwf hc)
  have hepb : pos.ep = 0 ∨ (21 ≤ pos.ep ∧ pos.ep ≤ 98) := by
    rcases hwf.2.2.1 with h | hp
    · exact Or.inl h
    · exact Or.inr (playable_bounds hp)
  have hkpb : pos.kp = 0 ∨ (21 ≤ pos.kp ∧ pos.kp ≤ 98) := by
    rcases hwf.2.2.2 with h | hp
    · exact Or.inl h
    · exact Or.inr (playable_bounds hp)
  obtain ⟨b, color, second, score, wa, ba, ws, bs, wc, bc, ep, kp⟩ := pos
  simp only at h2 hb hepb hkpb
  subst h2
  simp only [Position.rotate, Position.mk.injEq, Bool.not_not, neg_neg, and_true, true_and,
    and_self, eq_self_iff_true]
  refine ⟨hb, ?_, ?_⟩
  · rcases hepb with rfl | hh
    · norm_num
    · split_ifs <;> omega
  · rcases hkpb with rfl | hh
    · norm_num
    · split_ifs <;> omega

/-- C2 (witness for the amended theorem). -/
theorem rotate_rotate_eq_witness :
    WF classicPos ∧ classicPos.second = false ∧
      classicPos.rotate.rotate = classicPos :=
  ⟨by decide, rfl, rotate_rotate_eq classicPos (by decide) rfl⟩

/-- An Animals-armies position with a Tiger at 44 and an opposing pawn
at 33 (scenario S4 of the specification). -/
def tigerPos : Position :=
  ⟨("         \n         \n ....k...\n ..p.....\n ...T....\n ........\n ........\n ........\n ........\n ....C...\n         \n          ").toList,
   false, false, 0, 6, 1, 3, 3, (true, true), (true, true), 0, 0⟩

/-! ## C1: the score after a move -/

/-- C1: for every move produced by `genMoves`, the successor score is
`-(score + value(move))` when the move rotates the board (`second` set,
or `second` clear with `wa ≠ 5`), and `score + value(move)` when the Two
Kings second sub-turn is taken (`second` clear, `wa = 5`). -/
theorem move_score (pos : Position) (m : Int × Int)
    (_hm : m ∈ genMoves pos pos.second) :
    (pos.move m).score =
      if pos.second = false ∧ pos.wa = 5 then pos.score + pos.value m
      else -(pos.score + pos.value m) := by
  unfold Position.move Position.rotate
  cases h : pos.second <;> by_cases h5 : pos.wa = 5 <;> simp [h, h5]

/-- C1 (witness): a Tiger capture in an Animals-vs-Classic position, a
rotating move. -/
theorem move_score_witness :
    tigerPos.second = false ∧ (44, 33) ∈ genMoves tigerPos tigerPos.second ∧
      (tigerPos.move (44, 33)).score =
        (if tigerPos.second = false ∧ tigerPos.wa = 5
         then tigerPos.score + tigerPos.value (44, 33)
         else -(tigerPos.score + tigerPos.value (44, 33))) :=
  ⟨rfl, by decide, move_score tigerPos (44, 33) (by decide)⟩

/-! ## C9: Nemesis Queen frame effect -/

/-- C9: when `move` is applied with a Nemesis Queen mover whose target is
none of '.', 'k', 'u', 'w', 'c', the board is returned unchanged while
the score is still incremented by `value(move)`, `ep` and `kp` are reset
to 0, and the turn advances (rotation, or the Two Kings `second` flag)
exactly as for any other move. -/
theorem nemesis_queen_frame (pos : Position) (i j : Int)
    (hp : boardGet pos.board i = 'M')
    (hq : ¬(boardGet pos.board j = '.' ∨ boardGet pos.board j = 'k' ∨
            boardGet pos.board j = 'u' ∨ boardGet pos.board j = 'w' ∨
            boardGet pos.board j = 'c')) :
    pos.moveBoard (i, j) = pos.board ∧
    moveEp pos (i, j) = 0 ∧ moveKp pos (i, j) = 0 ∧
    pos.move (i, j) =
      (if pos.second = false ∧ pos.wa = 5 then
        Position.mk pos.board pos.color true (pos.score + pos.value (i, j))
          pos.wa pos.ba pos.ws pos.bs (moveWc pos (i, j)) (moveBc pos (i, j)) 0 0
      else
        (Position.mk pos.board pos.color false (pos.score + pos.value (i, j))
          pos.wa pos.ba pos.ws pos.bs (moveWc pos (i, j)) (moveBc pos (i, j)) 0 0).rotate) := by
  have hboard : pos.moveBoard (i, j) = pos.board := by
    unfold Position.moveBoard pawnEffect castleEffect pieceEffect
    simp only [hp]
    simp [hq]
  have hep : moveEp pos (i, j) = 0 := by
    simp [moveEp, hp]
  have hkp : moveKp pos (i, j) = 0 := by
    simp [moveKp, hp]
  refine ⟨hboard, hep, hkp, ?_⟩
  unfold Position.move
  rw [hboard, hep, hkp]
  cases h2 : pos.second <;> by_cases h5 : pos.wa = 5 <;> simp [h2, h5]

/-- A Nemesis-armies position with a Nemesis Queen at 54 and an opposing
rook at 57. -/
def nemesisPos : Position :=
  ⟨("         \n         \n ....k...\n ........\n ........\n ...M..r.\n ........\n ........\n ........\n ....C...\n         \n          ").toList,
   false, false, 0, 2, 1, 3, 3, (true, true), (true, true), 0, 0⟩

/-- C9 (witness): the Nemesis Queen at 54 aimed at the rook on 57. -/
theorem nemesis_queen_frame_witness :
    boardGet nemesisPos.board 54 = 'M' ∧ boardGet nemesisPos.board 57 = 'r' ∧
      nemesisPos.moveBoard (54, 57) = nemesisPos.board ∧
      moveEp nemesisPos (54, 57) = 0 ∧ moveKp nemesisPos (54, 57) = 0 :=
  ⟨by decide, by decide,
    (nemesis_queen_frame nemesisPos 54 57 (by decide) (by decide)).1,
    (nemesis_queen_frame nemesisPos 54 57 (by decide) (by decide)).2.1,
    (nemesis_queen_frame nemesisPos 54 57 (by decide) (by decide)).2.2.1⟩

/-! ## C6: the second-turn whirlwind -/

/-- A Two Kings position on the Warrior-King bonus sub-turn, with a lone
Warrior King at 55 and no adjacent Warrior. -/
def warriorSecondPos : Position :=
  ⟨("         \n         \n ....c...\n ........\n ........\n ....W...\n ........\n ........\n ........\n ........\n         \n          ").toList,
   false, true, 0, 5, 5, 3, 3, (true, true), (true, true), 0, 0⟩

/-- C6: on the second sub-turn the whirlwind `(i, i)` is never yielded,
even for a lone Warrior with no adjacent Warrior (the friendly-piece
break precedes the whirlwind case: at `d = H` the target square holds the
Warrior itself, which is uppercase).  On a normal turn the same position
does yield the whirlwind. -/
theorem second_whirlwind_missing :
    boardGet warriorSecondPos.board 55 = 'W' ∧
    whirlwindCant warriorSecondPos.board 55 = false ∧
    (genMoves warriorSecondPos true).contains (55, 55) = false ∧
    (genMoves warriorSecondPos false).contains (55, 55) = true := by
  refine ⟨by decide, by decide, by decide, by decide⟩

/-! ## C4 (counterexample): a castling yield with a whitespace target -/

/-- A legal classic position with the rook on A1 and the king beside it
on 92, queenside castling rights intact. -/
def castleEdgePos : Position :=
  ⟨("         \n         \n ....k...\n ........\n ........\n ........\n ........\n ........\n ........\n RK......\n         \n          ").toList,
   false, false, 0, 1, 1, 3, 3, (true, true), (true, true), 0, 0⟩

/-- C4 (counterexample): on a legal position, the queenside castling
detection yields `(92, 90)`, whose target square 90 holds the off-board
whitespace sentinel. -/
theorem genMoves_emits_whitespace_target :
    WF castleEdgePos ∧
    (genMoves castleEdgePos false).contains (92, 90) = true ∧
    boardGet castleEdgePos.board 90 = ' ' := by
  refine ⟨by decide, by decide, by decide⟩

/-! ## C7 (counterexample): the rampage takes one step fewer -/

/-- An Animals position with an Elephant at 51 capturing a pawn at 52,
with nothing but empty squares beyond. -/
def rampagePos : Position :=
  ⟨("         \n         \n ....k...\n ........\n ........\n Ep......\n ........\n ........\n ........\n ....C...\n         \n          ").toList,
   false, false, 0, 6, 1, 3, 3, (true, true), (true, true), 0, 0⟩

/-- C7 (counterexample): for the capture `(51, 52)` the distance is 1, so
the claim allows up to `|4 - 1| = 3` rampage steps, and no square on the
path is invulnerable; yet the Elephant halts at 54 after only two steps
(the source loop skips its index 0), leaving the vulnerable 55 empty. -/
theorem elephant_rampage_short :
    boardGet rampagePos.board 51 = 'E' ∧
    boardGet rampagePos.board 52 = 'p' ∧
    (genMoves rampagePos false).contains (51, 52) = true ∧
    distance 51 52 = 1 ∧
    boardGet (rampagePos.moveBoard (51, 52)) 54 = 'E' ∧
    boardGet (rampagePos.moveBoard (51, 52)) 55 = '.' ∧
    isPieceInvulnerable (rampagePos.moveBoard (51, 52)) 54 55 = false := by
  refine ⟨by decide, by decide, by decide, by decide, by decide, by decide, by decide⟩

/-! ## C10 (counterexample): a 120-character board that move grows -/

/-- A 120-character board (not satisfying the section-3 invariants) with
a pawn at index 119 and a king-passant target at 110 (`ep = 0`, so the
`pst['P'][j+S]` read of `value` is never reached; the only table reads on
this move are `pst['P'][110]`, `pst['P'][119]` and `pst['K'][110]`, all
in range). -/
def kpEdgePos : Position :=
  ⟨(List.replicate 110 ' ') ++ ('.' :: List.replicate 8 ' ') ++ ['P'],
   false, false, 0, 5, 1, 3, 3, (true, true), (true, true), 0, 110⟩

set_option maxRecDepth 8000 in
/-- C10 (counterexample): on a board of exactly 120 characters `genMoves`
yields the diagonal pawn move `(119, 110)` (its target is the king-passant
square, so the `j not in (self.ep, self.kp)` guard passes), and applying
it runs the en-passant-shaped clearing write `put(board, j + S, '.')` at
index 120, returning a Position whose board has 121 characters. -/
theorem move_grows_board :
    kpEdgePos.board.length = 120 ∧
    (genMoves kpEdgePos false).contains (119, 110) = true ∧
    (kpEdgePos.move (119, 110)).board.length = 121 := by
  refine ⟨by decide, by decide, by decide⟩

/-! ## C5: the stalemate fallback is dead code -/

/-- The identity test of the chained comparison in the source line
`best <= -MATE_VALUE is None`: it asks whether the int `-MATE_VALUE` is
`None`, which is always false. -/
def mateValueIsNone : Bool := false

/-- The stalemate fallback of `bound` exactly as written:
`if depth > 0 and best <= -MATE_VALUE is None and nullscore > -MATE_VALUE:
best = 0`, where the chained comparison means
`(best <= -MATE_VALUE) and ((-MATE_VALUE) is None)`. -/
def stalemateAdjust (depth best nullscore : Int) : Int :=
  if 0 < depth ∧ (best ≤ -MATE_VALUE ∧ mateValueIsNone = true) ∧ -MATE_VALUE < nullscore
  then 0 else best

/-- C5: at depth 1 with `best = -90000` and `nullscore = 0` — exactly the
stalemate situation the claim describes — the source leaves `best`
unchanged instead of setting it to 0: the chained comparison is always
false. -/
theorem stalemate_fallback_dead :
    0 < (1 : Int) ∧ (-90000 : Int) ≤ -MATE_VALUE ∧ -MATE_VALUE < (0 : Int) ∧
    stalemateAdjust 1 (-90000) 0 = -90000 := by
  refine ⟨by decide, by decide, by decide, by decide⟩

/-! ## C3: the transposition table trim -/

/-- A transposition-table entry `(depth, score, gamma, move)`. -/
structure Entry where
  depth : Int
  score : Int
  gamma : Int
  move : Option (Int × Int)
deriving DecidableEq

/-- The transposition table: an insertion-ordered association list, the
order of Python's OrderedDict. -/
abbrev Table := List (Position × Entry)

/-- `tp.get(pos)`. -/
def ttGet : Table → Position → Option Entry
  | [], _ => none
  | (k, e) :: rest, pos => if k = pos then some e else ttGet rest pos

/-- `tp[pos] = e` on an OrderedDict: replace in place when the key is
present, append otherwise. -/
def ttInsert (tp : Table) (pos : Position) (e : Entry) : Table :=
  if tp.any (fun kv => decide (kv.1 = pos)) then
    tp.map fun kv => if kv.1 = pos then (pos, e) else kv
  else tp ++ [(pos, e)]

/-- The table store of `bound` (source lines 827-829): insert the entry;
then, when the table has grown past TABLE_SIZE, the source calls
`tp.pop()` with no key argument, a call that raises TypeError, modelled
as `none`.  No entry is ever evicted. -/
def ttStoreStep (tp : Table) (pos : Position) (e : Entry) : Option Table :=
  if TABLE_SIZE < (ttInsert tp pos e).length then none else some (ttInsert tp pos e)

/-- A full table of `TABLE_SIZE` distinct positions. -/
def overfullTable : Table :=
  (List.range TABLE_SIZE).map fun (n : Nat) =>
    (⟨[], false, false, 0, 0, 0, 0, 0, (false, false), (false, false), (n : Int), 0⟩,
     ⟨0, 0, 0, none⟩)

/-- A position distinct from every key of `overfullTable`. -/
def freshPos : Position :=
  ⟨[], false, false, 0, 0, 0, 0, 0, (false, false), (false, false), -1, 0⟩

/-- C3: storing a new entry into a table already holding `TABLE_SIZE`
entries makes the trim step fail (the source's `tp.pop()` raises
TypeError); no oldest entry is evicted and the FIFO size bound is not
restored. -/
theorem tt_trim_fails : ttStoreStep overfullTable freshPos ⟨1, 0, 0, none⟩ = none := by
  have hany : overfullTable.any (fun kv => decide (kv.1 = freshPos)) = false := by
    rw [List.any_eq_false]
    rintro ⟨k, e⟩ hk
    simp only [overfullTable, List.mem_map, List.mem_range] at hk
    obtain ⟨n, hn, hke⟩ := hk
    have hke1 := congrArg Prod.fst hke
    simp only at hke1
    simp only [decide_eq_true_eq]
    intro hcon
    rw [← hke1] at hcon
    simp only [freshPos, Position.mk.injEq] at hcon
    omega
  have hins : ttInsert overfullTable freshPos ⟨1, 0, 0, none⟩ =
      overfullTable ++ [(freshPos, ⟨1, 0, 0, none⟩)] := by
    unfold ttInsert
    rw [hany]
    simp only [Bool.false_eq_true, if_false]
  have hlen : overfullTable.length = TABLE_SIZE := by
    unfold overfullTable
    rw [List.length_map, List.length_range]
  unfold ttStoreStep
  rw [hins, if_pos (by rw [List.length_append, hlen, List.length_singleton]; omega)]

/-! ## C7 (amended): characterizing the rampage -/

/-- Modelled from the amended claim: starting from the board on which the
Elephant has just been moved to `cur`, advance step by step in the ray
direction `d`: at each step, if the newly entered square is invulnerable
(per `isPieceInvulnerable`, tested from the Elephant's current square),
stop; otherwise move the Elephant one square onward, clearing the vacated
square.  The amended step budget is one less than the claim's
`|4 - dist|`. -/
def rampageSpec (b : List Char) (cur d : Int) : Nat → List Char
  | 0 => b
  | steps+1 =>
    if isPieceInvulnerable b cur (cur + d) then b
    else rampageSpec (put (put b (cur + d) 'E') cur '.') (cur + d) d steps

theorem rampageLoop_skip0 (i j : Int) (b : List Char) (l : List Nat) :
    rampageLoop i j b (0 :: l) = rampageLoop i j b l := by
  simp [rampageLoop]

theorem rampage_east_one (b : List Char) (i j : Int)
    (h1 : i / 10 - j / 10 = 0) (h2 : i - j < 0) :
    rampageLoop i j b [1] = rampageSpec b j 1 1 := by
  by_cases hv : isPieceInvulnerable b j (j + 1) = true <;>
    simp [rampageLoop, rampageSpec, h1, h2, hv, add_zero]

theorem rampage_east_two (b : List Char) (i j : Int)
    (h1 : i / 10 - j / 10 = 0) (h2 : i - j < 0) :
    rampageLoop i j b [1, 2] = rampageSpec b j 1 2 := by
  have e21 : j + (2 : Int) = j + 1 + 1 := by ring
  by_cases hv : isPieceInvulnerable b j (j + 1) = true
  · simp [rampageLoop, rampageSpec, h1, h2, hv, add_zero]
  · by_cases hv2 : isPieceInvulnerable (put (put b (j + 1) 'E') j '.') (j + 1) (j + 1 + 1) = true <;>
      simp [rampageLoop, rampageSpec, h1, h2, hv, hv2, add_zero, e21]

theorem rampage_west_one (b : List Char) (i j : Int)
    (h1 : i / 10 - j / 10 = 0) (h2 : ¬ i - j < 0) :
    rampageLoop i j b [1] = rampageSpec b j (-1) 1 := by
  have e1 : j + (-1 : Int) = j - 1 := by ring
  by_cases hv : isPieceInvulnerable b j (j - 1) = true <;>
    simp [rampageLoop, rampageSpec, h1, h2, hv, e1]

theorem rampage_west_two (b : List Char) (i j : Int)
    (h1 : i / 10 - j / 10 = 0) (h2 : ¬ i - j < 0) :
    rampageLoop i j b [1, 2] = rampageSpec b j (-1) 2 := by
  have e1 : j + (-1 : Int) = j - 1 := by ring
  have e2 : j - 1 + (-1 : Int) = j - 2 := by ring
  by_cases hv : isPieceInvulnerable b j (j - 1) = true
  · simp [rampageLoop, rampageSpec, h1, h2, hv, e1]
  · by_cases hv2 : isPieceInvulnerable (put (put b (j - 1) 'E') j '.') (j - 1) (j - 2) = true <;>
      simp [rampageLoop, rampageSpec, h1, h2, hv, hv2, e1, e2]

theorem rampage_north_one (b : List Char) (i j : Int)
    (h1 : ¬ i / 10 - j / 10 = 0) (h2 : 0 < i - j) :
    rampageLoop i j b [1] = rampageSpec b j (-10) 1 := by
  have e1 : j + (-10 : Int) = j - 10 := by ring
  by_cases hv : isPieceInvulnerable b j (j - 10) = true <;>
    simp [rampageLoop, rampageSpec, h1, h2, hv, e1]

theorem rampage_north_two (b : List Char) (i j : Int)
    (h1 : ¬ i / 10 - j / 10 = 0) (h2 : 0 < i - j) :
    rampageLoop i j b [1, 2] = rampageSpec b j (-10) 2 := by
  have e1 : j + (-10 : Int) = j - 10 := by ring
  have e2 : j - 10 + (-10 : Int) = j - 20 := by ring
  have e3 : j - 2 * 10 = j - 20 := by ring
  by_cases hv : isPieceInvulnerable b j (j - 10) = true
  · simp [rampageLoop, rampageSpec, h1, h2, hv, e1]
  · by_cases hv2 : isPieceInvulnerable (put (put b (j - 10) 'E') j '.') (j - 10) (j - 20) = true <;>
      simp [rampageLoop, rampageSpec, h1, h2, hv, hv2, e1, e2, e3]

theorem rampage_south_one (b : List Char) (i j : Int)
    (h1 : ¬ i / 10 - j / 10 = 0) (h2 : ¬ 0 < i - j) :
    rampageLoop i j b [1] = rampageSpec b j 10 1 := by
  by_cases hv : isPieceInvulnerable b j (j + 10) = true <;>
    simp [rampageLoop, rampageSpec, h1, h2, hv]

theorem rampage_south_two (b : List Char) (i j : Int)
    (h1 : ¬ i / 10 - j / 10 = 0) (h2 : ¬ 0 < i - j) :
    rampageLoop i j b [1, 2] = rampageSpec b j 10 2 := by
  have e2 : j + 10 + (10 : Int) = j + 20 := by ring
  have e3 : j + 2 * 10 = j + 20 := by ring
  by_cases hv : isPieceInvulnerable b j (j + 10) = true
  · simp [rampageLoop, rampageSpec, h1, h2, hv]
  · by_cases hv2 : isPieceInvulnerable (put (put b (j + 10) 'E') j '.') (j + 10) (j + 20) = true <;>
      simp [rampageLoop, rampageSpec, h1, h2, hv, hv2, e2, e3]

theorem rampage_case_east (pos : Position) (i j : Int) (k : Nat)
    (hE : boardGet pos.board i = 'E') (hq : boardGet pos.board j ≠ '.')
    (hk1 : 1 ≤ k) (hk4 : k ≤ 4) (hj : j = i + (k : Int)) (h10 : i / 10 = j / 10) :
    distance i j = (k : Int) ∧
    pos.moveBoard (i, j) =
      (if k < 3 then rampageSpec (put (put pos.board j 'E') i '.') j 1 (3 - k)
       else put (put pos.board j 'E') i '.') := by
  have hA : j / 10 - i / 10 = 0 := by omega
  have h1 : i / 10 - j / 10 = 0 := by omega
  have hb : pos.moveBoard (i, j) =
      (if 0 < 3 - distance i j then
        rampageLoop i j (put (put pos.board j 'E') i '.') (List.range (4 - distance i j).natAbs)
       else put (put pos.board j 'E') i '.') := by
    unfold Position.moveBoard pawnEffect castleEffect pieceEffect
    simp only [hE]
    simp [hq]
  interval_cases k
  · have h2 : i - j < 0 := by omega
    have hB : j % 10 - i % 10 = 1 := by omega
    have hdist : distance i j = 1 := by unfold distance; rw [hA, hB]; decide
    refine ⟨by rw [hdist]; norm_num, ?_⟩
    rw [hb, hdist]
    norm_num
    have hr : List.range (3 : Nat) = [0, 1, 2] := rfl
    rw [hr, rampageLoop_skip0, rampage_east_two _ i j h1 h2]
  · have h2 : i - j < 0 := by omega
    have hB : j % 10 - i % 10 = 2 := by omega
    have hdist : distance i j = 2 := by unfold distance; rw [hA, hB]; decide
    refine ⟨by rw [hdist]; norm_num, ?_⟩
    rw [hb, hdist]
    norm_num
    have hr : List.range (2 : Nat) = [0, 1] := rfl
    rw [hr, rampageLoop_skip0, rampage_east_one _ i j h1 h2]
  · have hB : j % 10 - i % 10 = 3 := by omega
    have hdist : distance i j = 3 := by unfold distance; rw [hA, hB]; decide
    refine ⟨by rw [hdist]; norm_num, ?_⟩
    rw [hb, hdist]
    norm_num
  · have hB : j % 10 - i % 10 = 4 := by omega
    have hdist : distance i j = 4 := by unfold distance; rw [hA, hB]; decide
    refine ⟨by rw [hdist]; norm_num, ?_⟩
    rw [hb, hdist]
    norm_num

theorem rampage_case_west (pos : Position) (i j : Int) (k : Nat)
    (hE : boardGet pos.board i = 'E') (hq : boardGet pos.board j ≠ '.')
    (hk1 : 1 ≤ k) (hk4 : k ≤ 4) (hj : j = i - (k : Int)) (h10 : i / 10 = j / 10) :
    distance i j = (k : Int) ∧
    pos.moveBoard (i, j) =
      (if k < 3 then rampageSpec (put (put pos.board j 'E') i '.') j (-1) (3 - k)
       else put (put pos.board j 'E') i '.') := by
  have hA : j / 10 - i / 10 = 0 := by omega
  have h1 : i / 10 - j / 10 = 0 := by omega
  have h2 : ¬ i - j < 0 := by omega
  have hb : pos.moveBoard (i, j) =
      (if 0 < 3 - distance i j then
        rampageLoop i j (put (put pos.board j 'E') i '.') (List.range (4 - distance i j).natAbs)
       else put (put pos.board j 'E') i '.') := by
    unfold Position.moveBoard pawnEffect castleEffect pieceEffect
    simp only [hE]
    simp [hq]
  interval_cases k
  · have hB : j % 10 - i % 10 = -1 := by omega
    have hdist : distance i j = 1 := by unfold distance; rw [hA, hB]; decide
    refine ⟨by rw [hdist]; norm_num, ?_⟩
    rw [hb, hdist]
    norm_num
    have hr : List.range (3 : Nat) = [0, 1, 2] := rfl
    rw [hr, rampageLoop_skip0, rampage_west_two _ i j h1 h2]
  · have hB : j % 10 - i % 10 = -2 := by omega
    have hdist : distance i j = 2 := by unfold distance; rw [hA, hB]; decide
    refine ⟨by rw [hdist]; norm_num, ?_⟩
    rw [hb, hdist]
    norm_num
    have hr : List.range (2 : Nat) = [0, 1] := rfl
    rw [hr, rampageLoop_skip0, rampage_west_one _ i j h1 h2]
  · have hB : j % 10 - i % 10 = -3 := by omega
    have hdist : distance i j = 3 := by unfold distance; rw [hA, hB]; decide
    refine ⟨by rw [hdist]; norm_num, ?_⟩
    rw [hb, hdist]
    norm_num
  · have hB : j % 10 - i % 10 = -4 := by omega
    have hdist : distance i j = 4 := by unfold distance; rw [hA, hB]; decide
    refine ⟨by rw [hdist]; norm_num, ?_⟩
    rw [hb, hdist]
    norm_num

theorem rampage_case_north (pos : Position) (i j : Int) (k : Nat)
    (hE : boardGet pos.board i = 'E') (hq : boardGet pos.board j ≠ '.')
    (hk1 : 1 ≤ k) (hk4 : k ≤ 4) (hj : j = i - 10 * (k : Int)) (hmod : i % 10 = j % 10) :
    distance i j = (k : Int) ∧
    pos.moveBoard (i, j) =
      (if k < 3 then rampageSpec (put (put pos.board j 'E') i '.') j (-10) (3 - k)
       else put (put pos.board j 'E') i '.') := by
  have hB : j % 10 - i % 10 = 0 := by omega
  have hA : j / 10 - i / 10 = -(k : Int) := by omega
  have h1 : ¬ i / 10 - j / 10 = 0 := by omega
  have h2 : 0 < i - j := by omega
  have hb : pos.moveBoard (i, j) =
      (if 0 < 3 - distance i j then
        rampageLoop i j (put (put pos.board j 'E') i '.') (List.range (4 - distance i j).natAbs)
       else put (put pos.board j 'E') i '.') := by
    unfold Position.moveBoard pawnEffect castleEffect pieceEffect
    simp only [hE]
    simp [hq]
  interval_cases k <;> norm_num at hA
  · have hdist : distance i j = 1 := by unfold distance; rw [hA, hB]; decide
    refine ⟨by rw [hdist]; norm_num, ?_⟩
    rw [hb, hdist]
    norm_num
    have hr : List.range (3 : Nat) = [0, 1, 2] := rfl
    rw [hr, rampageLoop_skip0, rampage_north_two _ i j h1 h2]
  · have hdist : distance i j = 2 := by unfold distance; rw [hA, hB]; decide
    refine ⟨by rw [hdist]; norm_num, ?_⟩
    rw [hb, hdist]
    norm_num
    have hr : List.range (2 : Nat) = [0, 1] := rfl
    rw [hr, rampageLoop_skip0, rampage_north_one _ i j h1 h2]
  · have hdist : distance i j = 3 := by unfold distance; rw [hA, hB]; decide
    refine ⟨by rw [hdist]; norm_num, ?_⟩
    rw [hb, hdist]
    norm_num
  · have hdist : distance i j = 4 := by unfold distance; rw [hA, hB]; decide
    refine ⟨by rw [hdist]; norm_num, ?_⟩
    rw [hb, hdist]
    norm_num

theorem rampage_case_south (pos : Position) (i j : Int) (k : Nat)
    (hE : boardGet pos.board i = 'E') (hq : boardGet pos.board j ≠ '.')
    (hk1 : 1 ≤ k) (hk4 : k ≤ 4) (hj : j = i + 10 * (k : Int)) (hmod : i % 10 = j % 10) :
    distance i j = (k : Int) ∧
    pos.moveBoard (i, j) =
      (if k < 3 then rampageSpec (put (put pos.board j 'E') i '.') j 10 (3 - k)
       else put (put pos.board j 'E') i '.') := by
  have hB : j % 10 - i % 10 = 0 := by omega
  have hA : j / 10 - i / 10 = (k : Int) := by omega
  have h1 : ¬ i / 10 - j / 10 = 0 := by omega
  have h2 : ¬ 0 < i - j := by omega
  have hb : pos.moveBoard (i, j) =
      (if 0 < 3 - distance i j then
        rampageLoop i j (put (put pos.board j 'E') i '.') (List.range (4 - distance i j).natAbs)
       else put (put pos.board j 'E') i '.') := by
    unfold Position.moveBoard pawnEffect castleEffect pieceEffect
    simp only [hE]
    simp [hq]
  interval_cases k <;> norm_num at hA
  · have hdist : distance i j = 1 := by unfold distance; rw [hA, hB]; decide
    refine ⟨by rw [hdist]; norm_num, ?_⟩
    rw [hb, hdist]
    norm_num
    have hr : List.range (3 : Nat) = [0, 1, 2] := rfl
    rw [hr, rampageLoop_skip0, rampage_south_two _ i j h1 h2]
  · have hdist : distance i j = 2 := by unfold distance; rw [hA, hB]; decide
    refine ⟨by rw [hdist]; norm_num, ?_⟩
    rw [hb, hdist]
    norm_num
    have hr : List.range (2 : Nat) = [0, 1] := rfl
    rw [hr, rampageLoop_skip0, rampage_south_one _ i j h1 h2]
  · have hdist : distance i j = 3 := by unfold distance; rw [hA, hB]; decide
    refine ⟨by rw [hdist]; norm_num, ?_⟩
    rw [hb, hdist]
    norm_num
  · have hdist : distance i j = 4 := by unfold distance; rw [hA, hB]; decide
    refine ⟨by rw [hdist]; norm_num, ?_⟩
    rw [hb, hdist]
    norm_num

/-- C7 (amended): applying `move` to an Elephant capture along a compass
ray of length `k = dist(i, j) ≤ 4` moves the Elephant to `j` and then,
exactly when `dist < 3`, advances it for up to `|4 - dist| - 1` further
steps (the source loop skips its index 0): each step clears the vacated
square and advances exactly when the newly entered square is not
invulnerable, stopping at the first invulnerable square.  When
`dist ≥ 3` no rampage step is taken. -/
theorem elephant_rampage_steps (pos : Position) (i j d : Int) (k : Nat)
    (hE : boardGet pos.board i = 'E') (hq : boardGet pos.board j ≠ '.')
    (hd : d = N ∨ d = E ∨ d = S ∨ d = W)
    (hk1 : 1 ≤ k) (hk4 : k ≤ 4)
    (hj : j = i + (k : Int) * d)
    (hrow : (d = E ∨ d = W) → i / 10 = j / 10)
    (hcol : (d = N ∨ d = S) → i % 10 = j % 10) :
    distance i j = (k : Int) ∧
    pos.moveBoard (i, j) =
      (if k < 3 then rampageSpec (put (put pos.board j 'E') i '.') j d (3 - k)
       else put (put pos.board j 'E') i '.') := by
  rcases hd with rfl | rfl | rfl | rfl
  · exact rampage_case_north pos i j k hE hq hk1 hk4
      (by rw [hj]; unfold N; ring) (hcol (Or.inl rfl))
  · exact rampage_case_east pos i j k hE hq hk1 hk4
      (by rw [hj]; unfold E; ring) (hrow (Or.inl rfl))
  · exact rampage_case_south pos i j k hE hq hk1 hk4
      (by rw [hj]; unfold S; ring) (hcol (Or.inr rfl))
  · exact rampage_case_west pos i j k hE hq hk1 hk4
      (by rw [hj]; unfold W; ring) (hrow (Or.inr rfl))

/-- C7 (witness for the amended theorem): the Elephant capture (51, 52). -/
theorem elephant_rampage_steps_witness :
    distance 51 52 = 1 ∧
    rampagePos.moveBoard (51, 52) =
      (if (1 : Nat) < 3 then
        rampageSpec (put (put rampagePos.board 52 'E') 51 '.') 52 1 (3 - 1)
       else put (put rampagePos.board 52 'E') 51 '.') :=
  elephant_rampage_steps rampagePos 51 52 1 1 (by decide) (by decide)
    (Or.inr (Or.inl rfl)) (by decide) (by decide) (by decide)
    (fun _ => by decide) (fun hc => absurd hc (by decide))

/-! ## C4 (amended): what genMoves may emit -/

/-- The shape of every emitted move on a well-formed board: the origin is
a playable square holding an uppercase piece, and the target is playable
except for the castling yields, which start from the king square and may
point two files past it. -/
def MoveOK (b : List Char) (m : Int × Int) : Prop :=
  playable m.1 ∧ (boardGet b m.1).isUpper = true ∧
  (playable m.2 ∨ (boardGet b m.1 = 'K' ∧ (m.2 = m.1 + 2 ∨ m.2 = m.1 - 2)))

theorem wf_playable_of_notspace {pos : Position} (hwf : WF pos) {s : Int}
    (h : ¬ isspace (boardGet pos.board s) = true) : playable s := by
  refine wf_playable_of_nonspace hwf ?_ ?_ <;> intro hc <;> rw [hc] at h <;>
    simp [isspace] at h

theorem lRoyalYield_sub (i j d k : Int) :
    lRoyalYield i j d k = [(i, j)] ∨ lRoyalYield i j d k = [] := by
  unfold lRoyalYield
  split_ifs <;> simp

theorem xyzOne_sub (b : List Char) (i j d : Int) (p : Char) (dr : Int) :
    (xyzOne b i j d p dr).1 = [(i, j)] ∨ (xyzOne b i j d p dr).1 = [] := by
  unfold xyzOne
  split_ifs <;> simp

theorem xyzYields_eq {b : List Char} {i j d : Int} {p : Char} :
    ∀ m ∈ (xyzYields b i j d p).1, m = (i, j) := by
  intro m hm
  unfold xyzYields at hm
  simp only [List.mem_flatMap, List.mem_map] at hm
  obtain ⟨l, ⟨r, hr, rfl⟩, hml⟩ := hm
  rcases xyzOne_sub b i j d p r with h | h <;> rw [h] at hml <;>
    [exact List.mem_singleton.mp hml; exact absurd hml (List.not_mem_nil m)]

theorem branchYields_eq {pos : Position} {royal : List Int} {i : Int} {p : Char} {d j : Int} :
    ∀ m ∈ (branchYields pos royal i p d j).1, m = (i, j) := by
  intro m hm
  unfold branchYields at hm
  split_ifs at hm <;>
    first
      | (simp only [List.mem_flatMap] at hm
         obtain ⟨k, hk, hmk⟩ := hm
         rcases lRoyalYield_sub i j d k with h | h <;> rw [h] at hmk <;>
           [exact List.mem_singleton.mp hmk; exact absurd hmk (List.not_mem_nil m)])
      | exact xyzYields_eq m hm
      | exact List.mem_singleton.mp hm
      | exact absurd hm (List.not_mem_nil m)

theorem castleYields_mem {pos : Position} {i j : Int} :
    ∀ m ∈ castleYields pos i j,
      boardGet pos.board j = 'K' ∧ (m = (j, j - 2) ∨ m = (j, j + 2)) := by
  intro m hm
  unfold castleYields at hm
  rcases List.mem_append.mp hm with h | h <;> split_ifs at h with hc <;>
    first
      | exact absurd h (List.not_mem_nil m)
      | (simp only [List.mem_singleton] at h
         subst h
         exact ⟨hc.2.1, Or.inl rfl⟩)
      | (simp only [List.mem_singleton] at h
         subst h
         exact ⟨hc.2.1, Or.inr rfl⟩)

theorem rayAcc_mem {pos : Position} {i j : Int} {p : Char} {el : Bool} :
    ∀ m ∈ rayAcc pos i j p el, m ∈ castleYields pos i j ∨ m = (i, j) := by
  intro m hm
  unfold rayAcc at hm
  rcases List.mem_append.mp hm with h | h
  · exact Or.inl h
  · split_ifs at h
    · exact Or.inr (by simpa using h)
    · exact absurd h (List.not_mem_nil m)

theorem rayStep_subset (pos : Position) (royal : List Int) (i : Int) (p : Char) (d j : Int)
    (el : Bool) :
    (rayStep pos royal i p d j el).1 ⊆
      rayAcc pos i j p el ++ (branchYields pos royal i p d j).1 := by
  unfold rayStep
  by_cases h1 : isspace (boardGet pos.board j) = true
  · rw [if_pos h1]
    exact List.nil_subset _
  · rw [if_neg h1]
    by_cases h2 : (boardGet pos.board j).isUpper = true ∧ p ≠ boardGet pos.board j ∧ p ≠ 'H' ∧ p ≠ 'E'
    · rw [if_pos h2]
      exact List.Subset.trans (by unfold rayAcc; exact List.subset_append_left _ _) (List.subset_append_left _ _)
    · rw [if_neg h2]
      by_cases h3 : p = 'P' ∧ (d = N+W ∨ d = N+E) ∧ boardGet pos.board j = '.' ∧ j ≠ pos.ep ∧ j ≠ pos.kp
      · rw [if_pos h3]
        exact List.subset_append_left _ _
      · rw [if_neg h3]
        by_cases h4 : p = 'P' ∧ (d = N ∨ d = 2*N) ∧ boardGet pos.board j ≠ '.'
        · rw [if_pos h4]
          exact List.subset_append_left _ _
        · rw [if_neg h4]
          by_cases h5 : p = 'P' ∧ d = 2*N ∧ (i < A1 + N ∨ boardGet pos.board (i + N) ≠ '.')
          · rw [if_pos h5]
            exact List.subset_append_left _ _
          · rw [if_neg h5]
            by_cases h6 : isPieceInvulnerable pos.board i j = true
            · rw [if_pos h6]
              exact List.subset_append_left _ _
            · rw [if_neg h6]
              by_cases h7 : p = 'L' ∧ (d = N ∨ d = E ∨ d = S ∨ d = W ∨ d = S+W ∨ d = S+E) ∧ boardGet pos.board j ≠ '.'
              · rw [if_pos h7]
                exact List.subset_append_left _ _
              · rw [if_neg h7]
                by_cases h8 : p = 'T' ∧ (d = 2*(N+E) ∨ d = 2*(S+E) ∨ d = 2*(S+W) ∨ d = 2*(N+W)) ∧ (boardGet pos.board (i + d / 2)).isUpper = true
                · rw [if_pos h8]
                  exact List.subset_append_left _ _
                · rw [if_neg h8]
                  by_cases h9 : p = 'M' ∧ ¬(boardGet pos.board j = 'k' ∨ boardGet pos.board j = 'u' ∨ boardGet pos.board j = 'w' ∨ boardGet pos.board j = 'c' ∨ boardGet pos.board j = '.')
                  · rw [if_pos h9]
                    exact List.subset_append_left _ _
                  · rw [if_neg h9]
                    by_cases h10 : p = 'E' ∧ 4 < distance i j
                    · rw [if_pos h10]
                      exact List.Subset.refl _
                    · rw [if_neg h10]
                      by_cases h11 : p = 'E' ∧ (boardGet pos.board (j - d)).isUpper = true
                      · rw [if_pos h11]
                        exact List.Subset.refl _
                      · rw [if_neg h11]
                        by_cases h12 : p = 'J' ∧ d ∈ knightDirs
                        · rw [if_pos h12]
                          exact List.Subset.refl _
                        · rw [if_neg h12]
                          by_cases h13 : p ∈ crawlerBase ∨ (branchYields pos royal i p d j).2 = true
                          · rw [if_pos h13]
                            exact List.Subset.refl _
                          · rw [if_neg h13]
                            by_cases h14 : (boardGet pos.board j).isLower = true
                            · rw [if_pos h14]
                              exact List.Subset.refl _
                            · rw [if_neg h14]
                              exact List.Subset.refl _

theorem rayStep_space {pos : Position} {royal : List Int} {i : Int} {p : Char} {d j : Int}
    {el : Bool} (h : isspace (boardGet pos.board j) = true) :
    (rayStep pos royal i p d j el).1 = [] := by
  unfold rayStep
  rw [if_pos h]

theorem rayStep_mem {pos : Position} {royal : List Int} {i : Int} {p : Char} {d j : Int}
    {el : Bool} :
    ∀ m ∈ (rayStep pos royal i p d j el).1,
      isspace (boardGet pos.board j) = false ∧
        (m ∈ castleYields pos i j ∨ m = (i, j)) := by
  intro m hm
  by_cases hsp : isspace (boardGet pos.board j) = true
  · rw [rayStep_space hsp] at hm
    exact absurd hm (List.not_mem_nil m)
  · refine ⟨by simpa using hsp, ?_⟩
    have hsub := rayStep_subset pos royal i p d j el hm
    rcases List.mem_append.mp hsub with h | h
    · exact rayAcc_mem m h
    · exact Or.inr (branchYields_eq m h)

theorem rayStep_MoveOK {pos : Position} (hwf : WF pos) {royal : List Int} {i : Int}
    {p : Char} {d j : Int} {el : Bool}
    (hp : boardGet pos.board i = p) (hup : p.isUpper = true) :
    ∀ m ∈ (rayStep pos royal i p d j el).1, MoveOK pos.board m := by
  intro m hm
  obtain ⟨hns, hshape⟩ := rayStep_mem m hm
  have hpj : playable j := wf_playable_of_notspace hwf (by rw [hns]; simp)
  rcases hshape with hc | rfl
  · obtain ⟨hK, hjj⟩ := castleYields_mem m hc
    rcases hjj with rfl | rfl
    · exact ⟨hpj, by rw [hK]; decide, Or.inr ⟨hK, Or.inr rfl⟩⟩
    · exact ⟨hpj, by rw [hK]; decide, Or.inr ⟨hK, Or.inl rfl⟩⟩
  · exact ⟨wf_playable_of_upper hwf (by rw [hp]; exact hup), by rw [hp]; exact hup,
      Or.inl hpj⟩

theorem rayGo_MoveOK {pos : Position} (hwf : WF pos) {royal : List Int} {i : Int}
    {p : Char} {d : Int} (hp : boardGet pos.board i = p) (hup : p.isUpper = true) :
    ∀ (fuel : Nat) (j : Int) (el : Bool), ∀ m ∈ rayGo pos royal i p d j el fuel,
      MoveOK pos.board m := by
  intro fuel
  induction fuel with
  | zero => intro j el m hm; exact absurd hm (List.not_mem_nil m)
  | succ fuel ih =>
    intro j el m hm
    unfold rayGo at hm
    rcases List.mem_append.mp hm with h | h
    · exact rayStep_MoveOK hwf hp hup m h
    · split_ifs at h
      · exact ih (j + d) _ m h
      · exact absurd h (List.not_mem_nil m)

theorem secondMoves_shape {pos : Position} {i : Int} {p : Char} {d : Int} :
    ∀ m ∈ secondMoves pos i p d,
      m = (i, i + d) ∧ isspace (boardGet pos.board (i + d)) = false := by
  intro m hm
  unfold secondMoves at hm
  by_cases h1 : ¬(p = 'U' ∨ p = 'W')
  · rw [if_pos h1] at hm
    exact absurd hm (List.not_mem_nil m)
  · rw [if_neg h1] at hm
    by_cases h2 : isspace (boardGet pos.board (i + d)) = true
    · rw [if_pos h2] at hm
      exact absurd hm (List.not_mem_nil m)
    · rw [if_neg h2] at hm
      refine ⟨?_, by simpa using h2⟩
      by_cases h3 : (boardGet pos.board (i + d)).isUpper = true
      · rw [if_pos h3] at hm
        exact absurd hm (List.not_mem_nil m)
      · rw [if_neg h3] at hm
        by_cases h4 : d = H
        · rw [if_pos h4] at hm
          by_cases h5 : whirlwindCant pos.board i = true
          · rw [if_pos h5] at hm
            exact absurd hm (List.not_mem_nil m)
          · rw [if_neg h5] at hm
            exact List.mem_singleton.mp hm
        · rw [if_neg h4] at hm
          exact List.mem_singleton.mp hm

theorem reaperMoves_shape (pos : Position) (i : Int) :
    ∀ ds, ∀ m ∈ reaperMoves pos i ds, m.1 = i ∧ m.2 ∈ ds := by
  intro ds
  induction ds with
  | nil => intro m hm; exact absurd hm (List.not_mem_nil m)
  | cons d ds ih =>
    intro m hm
    unfold reaperMoves at hm
    by_cases h1 : isPieceInvulnerable pos.board i d = true
    · rw [if_pos h1] at hm
      obtain ⟨ha, hb⟩ := ih m hm
      exact ⟨ha, List.mem_cons_of_mem _ hb⟩
    · rw [if_neg h1] at hm
      by_cases h2 : (boardGet pos.board d).isUpper = true
      · rw [if_pos h2] at hm
        exact absurd hm (List.not_mem_nil m)
      · rw [if_neg h2] at hm
        rcases List.mem_cons.mp hm with rfl | hm2
        · exact ⟨rfl, List.mem_cons_self _ _⟩
        · obtain ⟨ha, hb⟩ := ih m hm2
          exact ⟨ha, List.mem_cons_of_mem _ hb⟩

theorem reaperDirs_playable : ∀ s ∈ directions 'A', playable s := by decide

theorem ghostDirs_playable : ∀ s ∈ directions 'G', playable s := by decide

/-- Every move emitted by `genMoves` on a well-formed board has the
`MoveOK` shape. -/
theorem genMoves_MoveOK (pos : Position) (sec : Bool) (hwf : WF pos) :
    ∀ m ∈ genMoves pos sec, MoveOK pos.board m := by
  intro m hm
  unfold genMoves at hm
  simp only [List.mem_flatMap, List.mem_range] at hm
  obtain ⟨n, hn, hmn⟩ := hm
  by_cases hup : (boardGet pos.board (n : Int)).isUpper = false
  · rw [if_pos hup] at hmn
    exact absurd hmn (List.not_mem_nil m)
  · rw [if_neg hup] at hmn
    have hup2 : (boardGet pos.board (n : Int)).isUpper = true := by
      simpa using hup
    have hpi : playable (n : Int) := wf_playable_of_upper hwf hup2
    cases sec with
    | true =>
      rw [if_pos rfl] at hmn
      simp only [List.mem_flatMap] at hmn
      obtain ⟨d, hd, hmd⟩ := hmn
      obtain ⟨rfl, hns⟩ := secondMoves_shape m hmd
      exact ⟨hpi, hup2, Or.inl (wf_playable_of_notspace hwf (by rw [hns]; simp))⟩
    | false =>
      rw [if_neg (by simp)] at hmn
      by_cases hA : boardGet pos.board (n : Int) = 'A'
      · rw [if_pos hA] at hmn
        obtain ⟨h1, h2⟩ := reaperMoves_shape pos (n : Int) (directions 'A') m hmn
        exact ⟨by rw [h1]; exact hpi, by rw [h1]; exact hup2,
          Or.inl (reaperDirs_playable m.2 h2)⟩
      · rw [if_neg hA] at hmn
        by_cases hG : boardGet pos.board (n : Int) = 'G'
        · rw [if_pos hG] at hmn
          simp only [List.mem_flatMap] at hmn
          obtain ⟨d, hd, hmd⟩ := hmn
          by_cases hdot : boardGet pos.board d = '.'
          · rw [if_pos hdot] at hmd
            rw [List.mem_singleton.mp hmd]
            exact ⟨hpi, hup2, Or.inl (ghostDirs_playable d hd)⟩
          · rw [if_neg hdot] at hmd
            exact absurd hmd (List.not_mem_nil m)
        · rw [if_neg hG] at hmn
          simp only [List.mem_flatMap] at hmn
          obtain ⟨d, hd, hmd⟩ := hmn
          exact rayGo_MoveOK hwf rfl hup2 200 ((n : Int) + d) false m hmd

theorem wf_notspace_of_playable {pos : Position} (hwf : WF pos) {s : Int}
    (hpl : playable s) : isspace (boardGet pos.board s) = false := by
  have hb := playable_bounds hpl
  have hs : s = ((s.toNat : Nat) : Int) := by omega
  have hlt : s.toNat < 120 := by omega
  have hcell := (hwf.2.1 s.toNat hlt).1 (by rwa [← hs])
  rw [hs]
  revert hcell
  generalize boardGet pos.board ((s.toNat : Nat) : Int) = c
  intro hcell
  fin_cases hcell <;> rfl

/-- C4 (amended): on a legal position, every emitted move starts from a
playable square holding an uppercase piece, and its target square is a
playable, non-whitespace square -- except for the castling yields, which
start from the friendly king and point two files past it (there the
target may be an off-board whitespace square). -/
theorem genMoves_safe (pos : Position) (sec : Bool) (hwf : WF pos) (m : Int × Int)
    (hm : m ∈ genMoves pos sec) :
    playable m.1 ∧ (boardGet pos.board m.1).isUpper = true ∧
      ((isspace (boardGet pos.board m.2) = false ∧ playable m.2) ∨
       (boardGet pos.board m.1 = 'K' ∧ (m.2 = m.1 + 2 ∨ m.2 = m.1 - 2))) := by
  obtain ⟨h1, h2, h3⟩ := genMoves_MoveOK pos sec hwf m hm
  refine ⟨h1, h2, ?_⟩
  rcases h3 with hpl | hcastle
  · exact Or.inl ⟨wf_notspace_of_playable hwf hpl, hpl⟩
  · exact Or.inr hcastle

/-- C4 (witness for the amended theorem): the rook slide (91, 81) on the
position of the counterexample. -/
theorem genMoves_safe_witness :
    playable (91 : Int) ∧ (boardGet castleEdgePos.board 91).isUpper = true ∧
      ((isspace (boardGet castleEdgePos.board 81) = false ∧ playable (81 : Int)) ∨
       (boardGet castleEdgePos.board 91 = 'K' ∧
         ((81 : Int) = 91 + 2 ∨ (81 : Int) = 91 - 2))) :=
  genMoves_safe castleEdgePos false (by decide) (91, 81) (by decide)

/-! ## C10 (amended): the 120-cell board is preserved -/

theorem put_length {b : List Char} (hb : b.length = 120) {idx : Int} (h : idx < 120)
    (c : Char) : (put b idx c).length = 120 := by
  unfold put
  rw [List.length_append, List.length_append, List.length_take, List.length_drop,
    List.length_singleton, hb]
  omega

theorem distance_nonneg (a b : Int) : 0 ≤ distance a b := Int.natCast_nonneg _

theorem isqrtAux_pos {n : Nat} (h : 1 ≤ n) : ∀ k, 1 ≤ isqrtAux (k + 1) n := by
  intro k
  induction k with
  | zero => unfold isqrtAux; rw [if_pos (by simpa using h)]
  | succ k ih =>
    unfold isqrtAux
    split_ifs
    · omega
    · exact ih

theorem isqrt_pos {n : Nat} (h : 1 ≤ n) : 1 ≤ isqrt n := by
  unfold isqrt
  split_ifs
  · exact isqrtAux_pos h 30
  · exact Nat.sqrt_pos.mpr (by omega)

theorem distance_pos_of_rows {a b : Int} (h : ¬ a / 10 - b / 10 = 0) :
    1 ≤ distance a b := by
  unfold distance
  have hne : b / 10 - a / 10 ≠ 0 := by omega
  have h1 : 1 ≤ (b / 10 - a / 10) * (b / 10 - a / 10) := by
    rcases lt_or_gt_of_ne hne with hlt | hgt <;> nlinarith
  have h2 : 0 ≤ (b % 10 - a % 10) * (b % 10 - a % 10) := mul_self_nonneg _
  have h3 : 1 ≤ ((b / 10 - a / 10) * (b / 10 - a / 10) +
      (b % 10 - a % 10) * (b % 10 - a % 10)).toNat := by omega
  have h4 := isqrt_pos h3
  omega

theorem whirlwindClear_length {b : List Char} (hb : b.length = 120) {i : Int}
    (h1 : 21 ≤ i) (h2 : i ≤ 98) : (whirlwindClear b i).length = 120 := by
  have step : ∀ (l : List Int) (bb : List Char), bb.length = 120 →
      (∀ dr ∈ l, i + dr < 120) →
      (l.foldl (fun acc dr =>
        if isspace (boardGet acc (i + dr)) then acc else put acc (i + dr) '.') bb).length
        = 120 := by
    intro l
    induction l with
    | nil => intro bb hbb _; exact hbb
    | cons dr drs ih =>
      intro bb hbb hrange
      simp only [List.foldl_cons]
      split_ifs
      · exact ih bb hbb (fun x hx => hrange x (List.mem_cons_of_mem _ hx))
      · exact ih _ (put_length hbb (hrange dr (List.mem_cons_self _ _)) _)
          (fun x hx => hrange x (List.mem_cons_of_mem _ hx))
  unfold whirlwindClear
  refine step compassDirs b hb ?_
  intro dr hdr
  fin_cases hdr <;> simp [N, E, S, W] <;> omega

theorem rampageLoop_length {i j : Int} (hj1 : 21 ≤ j) (hj2 : j ≤ 98) :
    ∀ (drs : List Nat) (b : List Char), b.length = 120 →
      (∀ dr ∈ drs, dr ≤ 3) →
      (¬ i / 10 - j / 10 = 0 → ∀ dr ∈ drs, dr ≤ 2) →
      (rampageLoop i j b drs).length = 120 := by
  intro drs
  induction drs with
  | nil => intro b hb _ _; exact hb
  | cons dr drs ih =>
    intro b hb h3 h2
    have hd3 : dr ≤ 3 := h3 dr (List.mem_cons_self _ _)
    have h3' : ∀ x ∈ drs, x ≤ 3 := fun x hx => h3 x (List.mem_cons_of_mem _ hx)
    have h2' : ¬ i / 10 - j / 10 = 0 → ∀ x ∈ drs, x ≤ 2 :=
      fun hrow x hx => h2 hrow x (List.mem_cons_of_mem _ hx)
    have hhalf : (dr / 2 : Nat) ≤ dr := Nat.div_le_self dr 2
    unfold rampageLoop
    by_cases h0 : dr = 0
    · rw [if_pos h0]
      exact ih b hb h3' h2'
    · rw [if_neg h0]
      by_cases hrow : i / 10 - j / 10 = 0
      · rw [if_pos hrow]
        by_cases hwest : i - j < 0
        · rw [if_pos hwest]
          by_cases hv : isPieceInvulnerable b (j + ((dr / 2 : Nat) : Int)) (j + (dr : Int)) = true
          · rw [if_neg (not_not_intro hv)]
            exact hb
          · rw [if_pos hv]
            refine ih _ (put_length (put_length hb ?_ _) ?_ _) h3' h2' <;> omega
        · rw [if_neg hwest]
          by_cases hv : isPieceInvulnerable b (j - ((dr / 2 : Nat) : Int)) (j - (dr : Int)) = true
          · rw [if_neg (not_not_intro hv)]
            exact hb
          · rw [if_pos hv]
            refine ih _ (put_length (put_length hb ?_ _) ?_ _) h3' h2' <;> omega
      · rw [if_neg hrow]
        have hd2 : dr ≤ 2 := h2 hrow dr (List.mem_cons_self _ _)
        by_cases hnorth : 0 < i - j
        · rw [if_pos hnorth]
          by_cases hv : isPieceInvulnerable b (j - ((dr / 2 : Nat) : Int) * 10)
              (j - (dr : Int) * 10) = true
          · rw [if_neg (not_not_intro hv)]
            exact hb
          · rw [if_pos hv]
            refine ih _ (put_length (put_length hb ?_ _) ?_ _) h3' h2' <;> omega
        · rw [if_neg hnorth]
          by_cases hv : isPieceInvulnerable b (j + ((dr / 2 : Nat) : Int) * 10)
              (j + (dr : Int) * 10) = true
          · rw [if_neg (not_not_intro hv)]
            exact hb
          · rw [if_pos hv]
            refine ih _ (put_length (put_length hb ?_ _) ?_ _) h3' h2' <;> omega

theorem pieceEffect_length {pos : Position} {m : Int × Int} (hwf : WF pos)
    (hok : MoveOK pos.board m) : (pieceEffect pos m).length = 120 := by
  obtain ⟨hpl1, hup1, hshape⟩ := hok
  have hb := hwf.1
  have hi := playable_bounds hpl1
  have hj120 : m.2 < 120 := by
    rcases hshape with h | ⟨_, hc⟩
    · have := playable_bounds h
      omega
    · rcases hc with h2 | h2 <;> omega
  have hi120 : m.1 < 120 := by omega
  unfold pieceEffect
  split_ifs with c1 c2 c3 c4 c5 c6 c7
  · exact put_length hb hj120 _
  · have hpj : playable m.2 := by
      rcases hshape with h | ⟨hK, _⟩
      · exact h
      · rw [c2.1] at hK
        exact absurd hK (by decide)
    have hjb := playable_bounds hpj
    refine rampageLoop_length hjb.1 hjb.2 _ _
      (put_length (put_length hb hj120 _) hi120 _) ?_ ?_
    · intro dr hdr
      have hd0 := distance_nonneg m.1 m.2
      rw [List.mem_range] at hdr
      omega
    · intro hrow dr hdr
      have hd1 := distance_pos_of_rows hrow
      rw [List.mem_range] at hdr
      omega
  · exact put_length (put_length hb hj120 _) hi120 _
  · exact whirlwindClear_length hb hi.1 hi.2
  · exact put_length (put_length hb hj120 _) hi120 _
  · exact put_length (put_length hb hj120 _) hi120 _
  · exact hb
  · exact put_length (put_length hb hj120 _) hi120 _

theorem castleEffect_length {pos : Position} {m : Int × Int} {b : List Char}
    (hb : b.length = 120) (hok : MoveOK pos.board m) :
    (castleEffect pos m b).length = 120 := by
  have hi := playable_bounds hok.1
  have hj120 : m.2 < 120 := by
    rcases hok.2.2 with h | ⟨_, hc⟩
    · have := playable_bounds h
      omega
    · rcases hc with h2 | h2 <;> omega
  unfold castleEffect
  split_ifs with c1 c2
  · exact put_length (put_length hb (by decide) _) (by omega) _
  · exact put_length (put_length hb (by decide) _) (by omega) _
  · exact hb

theorem pawnEffect_length {pos : Position} {m : Int × Int} {b : List Char}
    (hb : b.length = 120) (hok : MoveOK pos.board m) :
    (pawnEffect pos m b).length = 120 := by
  have hi := playable_bounds hok.1
  have eA : A8 = 21 := rfl
  have eH : H8 = 28 := rfl
  have eN : N = -10 := rfl
  have eS : S = 10 := rfl
  have eW : W = -1 := rfl
  have eE : E = 1 := rfl
  unfold pawnEffect
  split_ifs with c1 c2 c3 c4
  · obtain ⟨hd, -⟩ := c3
    exact put_length (put_length hb (by omega) _)
      (by rcases hd with h | h <;> omega) _
  · exact put_length hb (by omega) _
  · obtain ⟨hd, -⟩ := c4
    exact put_length hb (by rcases hd with h | h <;> omega) _
  · exact hb
  · exact hb

/-- C10 (amended): on a legal position, `rotate` preserves the 120-cell
board, and so does `move` applied to any move produced by `genMoves`
(with either value of the second flag). -/
theorem move_preserves_board (pos : Position) (sec : Bool) (hwf : WF pos) (m : Int × Int)
    (hm : m ∈ genMoves pos sec) :
    pos.rotate.board.length = 120 ∧ (pos.move m).board.length = 120 := by
  have hok := genMoves_MoveOK pos sec hwf m hm
  have hmb : (pos.moveBoard m).length = 120 :=
    pawnEffect_length (castleEffect_length (pieceEffect_length hwf hok) hok) hok
  constructor
  · simp [Position.rotate, hwf.1]
  · unfold Position.move
    split_ifs <;> simp [Position.rotate, hmb]

/-- C10 (witness for the amended theorem): the pawn push (85, 75) from
the classic starting position. -/
theorem move_preserves_board_witness :
    classicPos.rotate.board.length = 120 ∧
      (classicPos.move (85, 75)).board.length = 120 :=
  move_preserves_board classicPos false (by decide) (85, 75) (by decide)

/-! ## C8: determinism of the search -/

/-- The rebinding `pos = Position(pos.board, pos.color, False, ...)` of
`bound`: the same position with the second flag cleared. -/
def clearSecond (pos : Position) : Position :=
  ⟨pos.board, pos.color, false, pos.score, pos.wa, pos.ba, pos.ws, pos.bs,
   pos.wc, pos.bc, pos.ep, pos.kp⟩

/-- The transposition-table lookup test of `bound`: the stored score is
used when the entry was searched at least as deep and its score bound is
compatible with `gamma`. -/
def ttHit (eo : Option Entry) (gamma depth : Int) : Option Int :=
  match eo with
  | none => none
  | some e =>
    if depth ≤ e.depth ∧
        (e.score < e.gamma ∧ e.score < gamma ∨ e.gamma ≤ e.score ∧ gamma ≤ e.score) then
      some e.score
    else none

/-- The store condition of `bound`:
`entry is None or depth >= entry.depth and best >= gamma`. -/
def storeCond (eo : Option Entry) (depth best gamma : Int) : Bool :=
  match eo with
  | none => true
  | some e => decide (e.depth ≤ depth ∧ gamma ≤ best)

/-- Stable insertion (descending by key): the element goes after every
earlier element with a key at least as large, exactly the order of
Python's stable `sorted(..., reverse=True)`. -/
def insertDesc (key : (Int × Int) → Int) (m : Int × Int) :
    List (Int × Int) → List (Int × Int)
  | [] => [m]
  | x :: xs => if key x ≤ key m then m :: x :: xs else x :: insertDesc key m xs

/-- `sorted(moves, key, reverse=True)`: stable descending sort. -/
def sortDesc (key : (Int × Int) → Int) : List (Int × Int) → List (Int × Int)
  | [] => []
  | x :: xs => insertDesc key x (sortDesc key xs)

/-- One iteration of the move loop of `bound`.  The accumulator carries a
break flag, the table, the node counter, `best` and `bmove`; `none`
records an aborted run (a recursive call that ran out of fuel or a table
store that crashed).  `bnd` is the recursive call to `bound` at the next
fuel level. -/
def loopStep (bnd : Table → Nat → Position → Int → Int → Option (Table × Nat × Int))
    (pos1 : Position) (gamma depth : Int)
    (acc : Option (Bool × Table × Nat × Int × Option (Int × Int))) (m : Int × Int) :
    Option (Bool × Table × Nat × Int × Option (Int × Int)) :=
  match acc with
  | none => none
  | some a =>
    if a.1 then some a
    else if depth ≤ 0 ∧ pos1.value m < 150 then some (true, a.2)
    else
      ((if pos1.second then bnd a.2.1 a.2.2.1 (pos1.move m) (1 - gamma) (depth - 1)
        else (bnd a.2.1 a.2.2.1 (pos1.move m) (1 - gamma) (depth - 1)).map
          (fun r => (r.1, r.2.1, -r.2.2))).bind
        fun r =>
          some (decide (gamma ≤ r.2.2), r.1, r.2.1,
            if a.2.2.2.1 < r.2.2 then r.2.2 else a.2.2.2.1,
            if a.2.2.2.1 < r.2.2 then some m else a.2.2.2.2))

/-- The whole move loop of `bound`: fold `loopStep` over the sorted move
list, starting from `best = -3 * MATE_VALUE`, `bmove = None`; the break
flag is dropped from the result. -/
def moveLoop (bnd : Table → Nat → Position → Int → Int → Option (Table × Nat × Int))
    (pos1 : Position) (gamma depth : Int) (tp : Table) (n : Nat) :
    Option (Table × Nat × Int × Option (Int × Int)) :=
  ((sortDesc (Position.value pos1) (genMoves pos1 pos1.second)).foldl
      (loopStep bnd pos1 gamma depth)
      (some (false, tp, n, -(3 * MATE_VALUE), none))).map (fun a => a.2)

/-- The null-move score of `bound`: for `depth > 0` a recursive call on
the rotated (cleared) position, negated unless the position had the
second flag set; otherwise the position's own score. -/
def nullMove (bnd : Table → Nat → Position → Int → Int → Option (Table × Nat × Int))
    (tp : Table) (n : Nat) (pos1 : Position) (sec : Bool) (gamma depth : Int) :
    Option (Table × Nat × Int) :=
  if 0 < depth then
    (bnd tp n pos1.rotate (1 - gamma) (depth - 3)).map
      (fun r => (r.1, r.2.1, if sec then r.2.2 else -r.2.2))
  else some (tp, n, pos1.score)

/-- The final store of `bound`: when the store condition (on the entry
looked up for the original position) holds, write the entry under the
rebound position and run the trim step, which crashes (`none`) on an
overfull table. -/
def storeStage (eo : Option Entry) (tp2 : Table) (n2 : Nat) (pos1 : Position)
    (gamma depth best : Int) (bmove : Option (Int × Int)) :
    Option (Table × Nat × Int) :=
  if storeCond eo depth best gamma then
    (ttStoreStep tp2 pos1 ⟨depth, best, gamma, bmove⟩).map (fun t => (t, n2, best))
  else some (tp2, n2, best)

/-- The body of `bound` with the recursive call abstracted as `bnd`.
State `(tp, nodes)` is passed and returned explicitly; the result score
is the third component.  Faithful to the source order: node increment,
table probe, mate cutoff, null move (on the position with the second
flag cleared -- the source rebinds `pos`), beta cutoff, move loop,
stand-pat, dead stalemate adjustment, table store. -/
def boundBody (bnd : Table → Nat → Position → Int → Int → Option (Table × Nat × Int))
    (tp : Table) (nodes : Nat) (pos : Position) (gamma depth : Int) :
    Option (Table × Nat × Int) :=
  match ttHit (ttGet tp pos) gamma depth with
  | some s => some (tp, nodes + 1, s)
  | none =>
    if MATE_VALUE ≤ (pos.score.natAbs : Int) then some (tp, nodes + 1, pos.score)
    else
      (nullMove bnd tp (nodes + 1) (if pos.second then clearSecond pos else pos)
          pos.second gamma depth).bind
        fun nr =>
          if gamma ≤ nr.2.2 then some nr
          else
            (moveLoop bnd (if pos.second then clearSecond pos else pos) gamma depth
                nr.1 nr.2.1).bind
              fun lr =>
                if depth ≤ 0 ∧ lr.2.2.1 < nr.2.2 then some (lr.1, lr.2.1, nr.2.2)
                else
                  storeStage (ttGet tp pos) lr.1 lr.2.1
                    (if pos.second then clearSecond pos else pos) gamma depth
                    (stalemateAdjust depth lr.2.2.1 nr.2.2) lr.2.2.2

/-- Fuel-indexed `bound`: `none` when the fuel runs out before the source
recursion bottoms out (or when a table store crashes). -/
def boundF : Nat → Table → Nat → Position → Int → Int → Option (Table × Nat × Int)
  | 0, _, _, _, _, _ => none
  | fuel + 1, tp, n, pos, gamma, depth => boundBody (boundF fuel) tp n pos gamma depth

/-- The inner MTD binary search of `search`:
`while lower < upper - 3: gamma = (lower+upper+1)//2; ...`. -/
def bisectF (bf : Nat) (pos : Position) (depth : Int) :
    Nat → Table → Nat → Int → Int → Int → Option (Table × Nat × Int)
  | 0, _, _, _, _, _ => none
  | fuel + 1, tp, n, lower, upper, score =>
    if lower < upper - 3 then
      match boundF bf tp n pos ((lower + upper + 1) / 2) depth with
      | none => none
      | some r =>
        bisectF bf pos depth fuel r.1 r.2.1
          (if (lower + upper + 1) / 2 ≤ r.2.2 then r.2.2 else lower)
          (if r.2.2 < (lower + upper + 1) / 2 then r.2.2 else upper) r.2.2
    else some (tp, n, score)

/-- The iterative-deepening loop of `search` (`for depth in range(1, 99)`),
stopping when the node budget is spent or a mate score appears. -/
def deepenF (bf : Nat) (pos : Position) (maxn : Int) :
    Nat → Int → Table → Nat → Int → Option (Table × Nat × Int)
  | 0, _, tp, n, score => some (tp, n, score)
  | k + 1, depth, tp, n, score =>
    match bisectF bf pos depth bf tp n (-(3 * MATE_VALUE)) (3 * MATE_VALUE) score with
    | none => none
    | some r =>
      if maxn ≤ (r.2.1 : Int) ∨ MATE_VALUE ≤ (r.2.2.natAbs : Int) then some r
      else deepenF bf pos maxn k (depth + 1) r.1 r.2.1 r.2.2

/-- `search(pos, maxn)` from an explicit table state: reset the node
counter, deepen from depth 1, then read the move for `pos` back out of
the table.  The result carries the `(move, score)` pair together with
the final table and node counter. -/
def searchF (bf : Nat) (tp : Table) (pos : Position) (maxn : Int) :
    Option (Option (Int × Int) × Int × Table × Nat) :=
  match deepenF bf pos maxn 98 1 tp 0 0 with
  | none => none
  | some r =>
    match ttGet r.1 pos with
    | none => some (none, r.2.2, r.1, r.2.1)
    | some e => some (e.move, r.2.2, r.1, r.2.1)

/-- A position already won: an empty board with a midline score. -/
def matePos : Position :=
  ⟨[], false, false, 60000, 0, 0, 0, 0, (false, false), (false, false), 0, 0⟩

/-- Two bound functions that agree wherever both complete. -/
def BndAgree (b1 b2 : Table → Nat → Position → Int → Int → Option (Table × Nat × Int)) :
    Prop :=
  ∀ tp n pos g d r1 r2, b1 tp n pos g d = some r1 → b2 tp n pos g d = some r2 → r1 = r2

theorem loopStep_none (bnd : Table → Nat → Position → Int → Int →
    Option (Table × Nat × Int)) (pos1 : Position) (g d : Int) (m : Int × Int) :
    loopStep bnd pos1 g d none m = none := rfl

theorem foldl_loopStep_none (bnd : Table → Nat → Position → Int → Int →
    Option (Table × Nat × Int)) (pos1 : Position) (g d : Int) :
    ∀ ms : List (Int × Int), ms.foldl (loopStep bnd pos1 g d) none = none := by
  intro ms
  induction ms with
  | nil => rfl
  | cons m ms ih => rw [List.foldl_cons, loopStep_none]; exact ih

theorem loopStep_agree {b1 b2 : Table → Nat → Position → Int → Int →
    Option (Table × Nat × Int)} (hA : BndAgree b1 b2) (pos1 : Position) (g d : Int)
    (acc : Option (Bool × Table × Nat × Int × Option (Int × Int))) (m : Int × Int) :
    loopStep b1 pos1 g d acc m = loopStep b2 pos1 g d acc m ∨
      loopStep b1 pos1 g d acc m = none ∨ loopStep b2 pos1 g d acc m = none := by
  cases acc with
  | none => left; rfl
  | some a =>
    by_cases hf : a.1 = true
    · left; simp [loopStep, hf]
    · by_cases hbc : d ≤ 0 ∧ pos1.value m < 150
      · left; simp [loopStep, hf, hbc]
      · by_cases hs : pos1.second = true
        all_goals
          cases h1 : b1 a.2.1 a.2.2.1 (pos1.move m) (1 - g) (d - 1) with
          | none => right; left; simp [loopStep, hf, hbc, hs, h1]
          | some q1 =>
            cases h2 : b2 a.2.1 a.2.2.1 (pos1.move m) (1 - g) (d - 1) with
            | none => right; right; simp [loopStep, hf, hbc, hs, h2]
            | some q2 =>
              left
              have hq : q1 = q2 := hA _ _ _ _ _ _ _ h1 h2
              subst hq
              simp [loopStep, hf, hbc, hs, h1, h2]

theorem loopFold_agree {b1 b2 : Table → Nat → Position → Int → Int →
    Option (Table × Nat × Int)} (hA : BndAgree b1 b2) (pos1 : Position) (g d : Int) :
    ∀ (ms : List (Int × Int)) (acc : Option (Bool × Table × Nat × Int × Option (Int × Int)))
      (r1 r2 : Bool × Table × Nat × Int × Option (Int × Int)),
      ms.foldl (loopStep b1 pos1 g d) acc = some r1 →
      ms.foldl (loopStep b2 pos1 g d) acc = some r2 → r1 = r2 := by
  intro ms
  induction ms with
  | nil =>
    intro acc r1 r2 h1 h2
    rw [List.foldl_nil] at h1 h2
    rw [h1] at h2
    exact Option.some.inj h2
  | cons m ms ih =>
    intro acc r1 r2 h1 h2
    rw [List.foldl_cons] at h1 h2
    rcases loopStep_agree hA pos1 g d acc m with he | hn | hn
    · rw [he] at h1
      exact ih _ _ _ h1 h2
    · rw [hn, foldl_loopStep_none] at h1
      cases h1
    · rw [hn, foldl_loopStep_none] at h2
      cases h2

theorem moveLoop_agree {b1 b2 : Table → Nat → Position → Int → Int →
    Option (Table × Nat × Int)} (hA : BndAgree b1 b2) (pos1 : Position) (g d : Int)
    (tp : Table) (n : Nat) (r1 r2 : Table × Nat × Int × Option (Int × Int))
    (h1 : moveLoop b1 pos1 g d tp n = some r1)
    (h2 : moveLoop b2 pos1 g d tp n = some r2) : r1 = r2 := by
  unfold moveLoop at h1 h2
  cases hf1 : (sortDesc (Position.value pos1) (genMoves pos1 pos1.second)).foldl
      (loopStep b1 pos1 g d) (some (false, tp, n, -(3 * MATE_VALUE), none)) with
  | none => rw [hf1] at h1; cases h1
  | some a1 =>
    cases hf2 : (sortDesc (Position.value pos1) (genMoves pos1 pos1.second)).foldl
        (loopStep b2 pos1 g d) (some (false, tp, n, -(3 * MATE_VALUE), none)) with
    | none => rw [hf2] at h2; cases h2
    | some a2 =>
      have ha : a1 = a2 := loopFold_agree hA pos1 g d _ _ _ _ hf1 hf2
      subst ha
      rw [hf1] at h1
      rw [hf2] at h2
      rw [h1] at h2
      exact Option.some.inj h2

theorem nullMove_agree {b1 b2 : Table → Nat → Position → Int → Int →
    Option (Table × Nat × Int)} (hA : BndAgree b1 b2) (tp : Table) (n : Nat)
    (pos1 : Position) (sec : Bool) (g d : Int) :
    nullMove b1 tp n pos1 sec g d = nullMove b2 tp n pos1 sec g d ∨
      nullMove b1 tp n pos1 sec g d = none ∨ nullMove b2 tp n pos1 sec g d = none := by
  by_cases hD : 0 < d
  · cases h1 : b1 tp n pos1.rotate (1 - g) (d - 3) with
    | none => right; left; simp [nullMove, hD, h1]
    | some q1 =>
      cases h2 : b2 tp n pos1.rotate (1 - g) (d - 3) with
      | none => right; right; simp [nullMove, hD, h2]
      | some q2 =>
        left
        have hq : q1 = q2 := hA _ _ _ _ _ _ _ h1 h2
        subst hq
        simp [nullMove, hD, h1, h2]
  · left; simp [nullMove, hD]

theorem boundBody_agree {b1 b2 : Table → Nat → Position → Int → Int →
    Option (Table × Nat × Int)} (hA : BndAgree b1 b2) :
    BndAgree (boundBody b1) (boundBody b2) := by
  intro tp n pos g d r1 r2 h1 h2
  unfold boundBody at h1 h2
  cases hH : ttHit (ttGet tp pos) g d with
  | some s =>
    simp only [hH] at h1 h2
    rw [h1] at h2
    exact Option.some.inj h2
  | none =>
    simp only [hH] at h1 h2
    by_cases hM : MATE_VALUE ≤ ((pos.score.natAbs : Nat) : Int)
    · rw [if_pos hM] at h1 h2
      rw [h1] at h2
      exact Option.some.inj h2
    · rw [if_neg hM] at h1 h2
      rcases nullMove_agree hA tp (n + 1) (if pos.second then clearSecond pos else pos)
          pos.second g d with he | hn | hn
      · rw [he] at h1
        cases hN : nullMove b2 tp (n + 1) (if pos.second then clearSecond pos else pos)
            pos.second g d with
        | none => rw [hN, Option.none_bind] at h1; cases h1
        | some nr =>
          rw [hN, Option.some_bind] at h1 h2
          by_cases hG : g ≤ nr.2.2
          · rw [if_pos hG] at h1 h2
            rw [h1] at h2
            exact Option.some.inj h2
          · rw [if_neg hG] at h1 h2
            cases hL1 : moveLoop b1 (if pos.second then clearSecond pos else pos) g d
                nr.1 nr.2.1 with
            | none => rw [hL1, Option.none_bind] at h1; cases h1
            | some lr1 =>
              cases hL2 : moveLoop b2 (if pos.second then clearSecond pos else pos) g d
                  nr.1 nr.2.1 with
              | none => rw [hL2, Option.none_bind] at h2; cases h2
              | some lr2 =>
                have hl : lr1 = lr2 := moveLoop_agree hA _ _ _ _ _ _ _ hL1 hL2
                subst hl
                rw [hL1, Option.some_bind] at h1
                rw [hL2, Option.some_bind] at h2
                rw [h1] at h2
                exact Option.some.inj h2
      · rw [hn, Option.none_bind] at h1; cases h1
      · rw [hn, Option.none_bind] at h2; cases h2

theorem boundF_agree : ∀ f1 f2 : Nat, BndAgree (boundF f1) (boundF f2) := by
  intro f1
  induction f1 with
  | zero =>
    intro f2 tp n pos g d r1 r2 h1 h2
    simp [boundF] at h1
  | succ f ih =>
    intro f2
    cases f2 with
    | zero =>
      intro tp n pos g d r1 r2 h1 h2
      simp [boundF] at h2
    | succ f2 =>
      intro tp n pos g d r1 r2 h1 h2
      rw [boundF] at h1 h2
      exact boundBody_agree (ih f2) tp n pos g d r1 r2 h1 h2

theorem bisectF_agree (pos : Position) (d : Int) :
    ∀ (fu1 bf1 bf2 fu2 : Nat) (tp : Table) (n : Nat) (lo up sc : Int)
      (r1 r2 : Table × Nat × Int),
      bisectF bf1 pos d fu1 tp n lo up sc = some r1 →
      bisectF bf2 pos d fu2 tp n lo up sc = some r2 → r1 = r2 := by
  intro fu1
  induction fu1 with
  | zero =>
    intro bf1 bf2 fu2 tp n lo up sc r1 r2 h1 h2
    simp [bisectF] at h1
  | succ fu ih =>
    intro bf1 bf2 fu2 tp n lo up sc r1 r2 h1 h2
    cases fu2 with
    | zero => simp [bisectF] at h2
    | succ fu2 =>
      rw [bisectF] at h1 h2
      by_cases hc : lo < up - 3
      · rw [if_pos hc] at h1 h2
        cases hb1 : boundF bf1 tp n pos ((lo + up + 1) / 2) d with
        | none => rw [hb1] at h1; cases h1
        | some q1 =>
          cases hb2 : boundF bf2 tp n pos ((lo + up + 1) / 2) d with
          | none => rw [hb2] at h2; cases h2
          | some q2 =>
            have hq : q1 = q2 := boundF_agree bf1 bf2 _ _ _ _ _ _ _ hb1 hb2
            subst hq
            rw [hb1] at h1
            rw [hb2] at h2
            exact ih bf1 bf2 fu2 _ _ _ _ _ _ _ h1 h2
      · rw [if_neg hc] at h1 h2
        rw [h1] at h2
        exact Option.some.inj h2

theorem deepenF_agree (pos : Position) (maxn : Int) :
    ∀ (k bf1 bf2 : Nat) (depth : Int) (tp : Table) (n : Nat) (sc : Int)
      (r1 r2 : Table × Nat × Int),
      deepenF bf1 pos maxn k depth tp n sc = some r1 →
      deepenF bf2 pos maxn k depth tp n sc = some r2 → r1 = r2 := by
  intro k
  induction k with
  | zero =>
    intro bf1 bf2 depth tp n sc r1 r2 h1 h2
    rw [deepenF] at h1 h2
    rw [h1] at h2
    exact Option.some.inj h2
  | succ k ih =>
    intro bf1 bf2 depth tp n sc r1 r2 h1 h2
    rw [deepenF] at h1 h2
    cases hb1 : bisectF bf1 pos depth bf1 tp n (-(3 * MATE_VALUE)) (3 * MATE_VALUE) sc with
    | none => rw [hb1] at h1; cases h1
    | some q1 =>
      cases hb2 : bisectF bf2 pos depth bf2 tp n (-(3 * MATE_VALUE)) (3 * MATE_VALUE) sc with
      | none => rw [hb2] at h2; cases h2
      | some q2 =>
        have hq : q1 = q2 := bisectF_agree pos depth bf1 bf1 bf2 bf2 _ _ _ _ _ _ _ hb1 hb2
        subst hq
        simp only [hb1] at h1
        simp only [hb2] at h2
        by_cases hstop : maxn ≤ (q1.2.1 : Int) ∨ MATE_VALUE ≤ ((q1.2.2.natAbs : Nat) : Int)
        · rw [if_pos hstop] at h1 h2
          rw [h1] at h2
          exact Option.some.inj h2
        · rw [if_neg hstop] at h1 h2
          exact ih bf1 bf2 _ _ _ _ _ _ h1 h2

/-- C8: the search is deterministic.  `searchF` makes the process state
explicit: it takes the transposition table as an input and returns the
`(move, score)` pair together with the final table and node count; the
fuel argument is the only run-dependent artifact of the embedding.  Any
two completed runs of `search(pos, maxn)` from the same table state --
whatever fuel each was given -- return the same move, the same score,
the same final table and the same node count. -/
theorem search_det (pos : Position) (maxn : Int) (tp : Table) (f1 f2 : Nat)
    (r1 r2 : Option (Int × Int) × Int × Table × Nat)
    (h1 : searchF f1 tp pos maxn = some r1)
    (h2 : searchF f2 tp pos maxn = some r2) : r1 = r2 := by
  unfold searchF at h1 h2
  cases hd1 : deepenF f1 pos maxn 98 1 tp 0 0 with
  | none => rw [hd1] at h1; cases h1
  | some q1 =>
    cases hd2 : deepenF f2 pos maxn 98 1 tp 0 0 with
    | none => rw [hd2] at h2; cases h2
    | some q2 =>
      have hq : q1 = q2 := deepenF_agree pos maxn 98 f1 f2 1 tp 0 0 _ _ hd1 hd2
      subst hq
      rw [hd1] at h1
      rw [hd2] at h2
      rw [h1] at h2
      exact Option.some.inj h2

/-- C8 (witness): two runs of the search on the already-won `matePos`
with budget 1 and different fuel amounts both complete and agree. -/
theorem search_det_witness :
    ((none, 60000, [], 2) : Option (Int × Int) × Int × Table × Nat) =
      ((none, 60000, [], 2) : Option (Int × Int) × Int × Table × Nat) :=
  search_det matePos 1 [] 30 41 (none, 60000, [], 2) (none, 60000, [], 2) rfl rfl

end Chess2
